import Mathlib

/-!
# Verification of the gojvm bytecode interpreter core

A shallow embedding, in Lean 4, of the parts of the gojvm JVM implementation
(packages `pkg/vm` and `pkg/classfile`) that the verified properties speak
about: the tagged value cell and frame model (`frame.go`), the constant-pool
resolvers (`constant_pool.go`), the class-initialization ledger
(`ensureInitialized`), the exception-table search (`findExceptionHandler`),
the method execution loop (`executeMethod`), the field/object opcodes
(`executeGetstatic`, `executeGetfield`, `executeNew`), the class loaders
(`classloader.go`) and the native string-method handler
(`handleStringMethod`).

Conventions of the embedding:

* Go machine integers are modelled as `Int` with explicit two's-complement
  reduction (`wrap32`) where overflow matters; Go's truncated division and
  remainder are `Int.tdiv` / `Int.tmod`.
* Go errors are the inductive `GoError`.  A `*JavaException` is the
  `GoError.javaExc` constructor; `fmt.Errorf("...: %w", err)` is
  `GoError.wrapped`; every other `fmt.Errorf` is `GoError.hostErr`.
  A Go type assertion `err.(*JavaException)` succeeds exactly on the
  `javaExc` constructor (it does not unwrap), modelled by `isJavaExc`.
* A Go `panic` (index out of range, stack underflow) aborts the process; it
  is modelled by a distinguished `panicked` outcome, separate from errors.
* Go maps keyed by strings are modelled as association lists, except the
  `map[string]bool` initialization ledger, which is modelled as its
  characteristic function `String → Bool` (pointwise updates).
* Mutation through pointers is modelled by explicit state passing: functions
  return the updated `Frame` / VM state next to their result.
-/

set_option linter.unusedVariables false

namespace GoJVM

/-! Tagged value cell (`Value` in `pkg/vm/frame.go`) together with the heap
object model (`JObject`, `JArray` in `object.go` and the sentinel
print-stream of `pkg/native`).  The Go struct holds one payload field per
tag; constructors `IntValue`, `LongValue`, ... set exactly one payload, so
an inductive with one constructor per tag is the faithful rendering.  Host
strings (Go `string` used for JDK strings) are byte/char lists. -/
mutual

inductive Value where
  | vInt (i : Int)
  | vLong (i : Int)
  | vFloat (x : Int)
  | vDouble (x : Int)
  | vRef (r : RefVal)
  | vNull

inductive RefVal where
  | obj (o : JObj)
  | arr (elems : List Value)
  | str (chars : List Char)
  | printStream

inductive JObj where
  | mk (className : String) (fields : List (String × Value))

end

/-- Source `JObject.ClassName`. -/
def JObj.className : JObj → String
  | .mk c _ => c

/-- Source `JObject.Fields`. -/
def JObj.fields : JObj → List (String × Value)
  | .mk _ f => f

/-- Reading the `Int` payload field of a Go `Value` struct: it is the stored
int32 for an `IntValue` and the zero value `0` for every other tag. -/
def Value.intField : Value → Int
  | .vInt i => i
  | _ => 0

/-- Reading the `Ref` payload field: `nil` (`none`) unless the value was
built by `RefValue`. -/
def Value.refField : Value → Option RefVal
  | .vRef r => some r
  | _ => none

/-- The zero Go struct `Value{}` (tag `TypeInt = 0`, payloads zero). -/
def zeroValue : Value := .vInt 0

/-- Go error values as the interpreter distinguishes them.  `javaExc` is the
discriminated `*JavaException` carrier of `pkg/vm/exception.go`; `wrapped`
is `fmt.Errorf` with a `%w` verb (which produces a distinct wrapper type);
`hostErr` is any other host error. -/
inductive GoError where
  | javaExc (o : JObj)
  | hostErr (msg : String)
  | wrapped (msg : String) (inner : GoError)

/-- The Go type assertion `err.(*JavaException)`: succeeds only when the
dynamic type is `*JavaException` itself — it never unwraps a `wrapped`
error. -/
def isJavaExc : GoError → Option JObj
  | .javaExc o => some o
  | _ => none

/-- Source `NewJavaException` (`pkg/vm/exception.go`): a `JavaException` carrying a
fresh object of the given class with an empty field map. -/
def NewJavaException (className : String) : GoError :=
  .javaExc (.mk className [])

/-- Constant-pool entries (`pkg/classfile/types.go`), restricted to the
kinds the verified code paths consult. -/
inductive PoolEntry where
  | utf8 (s : String)
  | integer (i : Int)
  | cls (nameIndex : Nat)
  | fieldref (classIndex natIndex : Nat)
  | nameAndType (nameIndex descIndex : Nat)

/-- The 1-indexed constant pool: Go's `[]ConstantPoolEntry` whose slot 0
(and the second slot of long/double entries) is `nil`. -/
abbrev Pool := List (Option PoolEntry)

/-- Source `GetUtf8` (`pkg/classfile/constant_pool.go`): bounds/nil check, then a
type check that the entry is `Utf8`. -/
def GetUtf8 (pool : Pool) (index : Nat) : Except String String :=
  match pool.getD index none with
  | none => .error ("invalid constant pool index " ++ toString index)
  | some (.utf8 s) => .ok s
  | some _ => .error ("constant pool index " ++ toString index ++ " is not Utf8")

/-- Source `GetClassName`: resolve a `CONSTANT_Class` entry to its UTF-8 name. -/
def GetClassName (pool : Pool) (classIndex : Nat) : Except String String :=
  match pool.getD classIndex none with
  | none => .error ("invalid constant pool index " ++ toString classIndex)
  | some (.cls nameIndex) => GetUtf8 pool nameIndex
  | some _ => .error ("constant pool index " ++ toString classIndex ++ " is not Class")

/-- Source `FieldRefInfo` (`pkg/classfile/constant_pool.go`). -/
structure FieldRefInfo where
  className : String
  fieldName : String
  descriptor : String
deriving DecidableEq

/-- Source `ResolveFieldref`: resolve a `CONSTANT_Fieldref` to
`(class, name, descriptor)`. -/
def ResolveFieldref (pool : Pool) (index : Nat) : Except String FieldRefInfo :=
  match pool.getD index none with
  | none => .error ("invalid constant pool index " ++ toString index)
  | some (.fieldref classIndex natIndex) =>
    match GetClassName pool classIndex with
    | .error e => .error ("resolving Fieldref class: " ++ e)
    | .ok className =>
      match pool.getD natIndex none with
      | some (.nameAndType nameIndex descIndex) =>
        match GetUtf8 pool nameIndex with
        | .error e => .error ("resolving field name: " ++ e)
        | .ok fieldName =>
          match GetUtf8 pool descIndex with
          | .error e => .error ("resolving field descriptor: " ++ e)
          | .ok descriptor => .ok ⟨className, fieldName, descriptor⟩
      | _ => .error ("invalid NameAndType index " ++ toString natIndex)
  | some _ => .error ("constant pool index " ++ toString index ++ " is not Fieldref")

/-- One abstract action of a `<clinit>` body.  The repository runs the
initializer through `executeMethod` over its bytecode; for the
initialization-order properties only two effects of that execution are
relevant, so the body is abstracted to a list of them:
`trigger c` — an opcode (`new`/`getstatic`/`putstatic`/`invokestatic`)
triggers initialization of class `c`; `throwJava c` — the body ends with an
uncaught Java exception of class `c`; `hostFail m` — the body ends with a
host error. -/
inductive ClinitOp where
  | trigger (c : String)
  | throwJava (c : String)
  | hostFail (msg : String)

/-- Source `ExceptionHandler` (`pkg/classfile/types.go`): one exception-table
entry. -/
structure ExceptionHandler where
  startPC : Nat
  endPC : Nat
  handlerPC : Nat
  catchType : Nat
deriving DecidableEq

/-- Source `CodeAttribute`: the fields the interpreter reads. -/
structure CodeAttr where
  maxStack : Nat
  maxLocals : Nat
  code : List Nat
  handlers : List ExceptionHandler

/-- Source `ClassFile` restricted to the fields the verified code paths read.
`clinitOps` stands for `FindMethod("<clinit>", "()V")` together with the
execution of that method's body (see `ClinitOp`): `none` when the class has
no `<clinit>`. -/
structure ClassFile where
  pool : Pool
  thisClass : Nat
  superClass : Nat
  interfaces : List Nat
  clinitOps : Option (List ClinitOp)

/-- Source `ClassFile.SuperClassName` (`pkg/classfile/types.go`): `""` for the root
class (`SuperClass == 0`) and on resolution errors. -/
def ClassFile.superClassName (cf : ClassFile) : String :=
  if cf.superClass = 0 then ""
  else
    match GetClassName cf.pool cf.superClass with
    | .error _ => ""
    | .ok name => name

/-- Source `ClassFile.ClassName` with the error ignored, as the interpreter loop
uses it for diagnostics. -/
def ClassFile.classNameStr (cf : ClassFile) : String :=
  match GetClassName cf.pool cf.thisClass with
  | .error _ => ""
  | .ok name => name

/-- Source `Frame` (`pkg/vm/frame.go`): locals, operand stack (head = top of
stack, so that `Push`/`Pop` act on the head; the list length is `SP`),
bytecode, program counter (a Go `int`, hence `Int`), and the class whose
pool the opcodes reference. -/
structure Frame where
  locals : List Value
  stack : List Value
  code : List Nat
  pc : Int
  cls : ClassFile

/-- Source `Frame.Push`.  The Go version panics when `SP` reaches `max_stack`; the
executions the theorems speak about stay within bounds, and the stack is
modelled unbounded. -/
def Frame.push (f : Frame) (v : Value) : Frame :=
  { f with stack := v :: f.stack }

/-- Source `Frame.Pop`; `none` models the stack-underflow panic. -/
def Frame.pop? (f : Frame) : Option (Value × Frame) :=
  match f.stack with
  | [] => none
  | v :: rest => some (v, { f with stack := rest })

/-- Fetch the code byte at an `Int` position; `none` models the
index-out-of-range panic. -/
def Frame.byteAt (f : Frame) (pos : Int) : Option Nat :=
  if pos < 0 then none else f.code.get? pos.toNat

/-- Source `Frame.ReadU8`: read one operand byte and advance `PC`. -/
def Frame.readU8? (f : Frame) : Option (Nat × Frame) :=
  match f.byteAt f.pc with
  | none => none
  | some b => some (b, { f with pc := f.pc + 1 })

/-- Big-endian signed 16-bit value of two bytes, as computed by
`Frame.ReadI16` (`int16(hi)<<8 | int16(lo)` in two's complement). -/
def i16val (hi lo : Nat) : Int :=
  if hi * 256 + lo < 32768 then (hi * 256 + lo : Int)
  else (hi * 256 + lo : Int) - 65536

/-- Source `Frame.ReadI16`: read a big-endian `i16` operand and advance `PC` by
2. -/
def Frame.readI16? (f : Frame) : Option (Int × Frame) :=
  match f.byteAt f.pc, f.byteAt (f.pc + 1) with
  | some hi, some lo => some (i16val hi lo, { f with pc := f.pc + 2 })
  | _, _ => none

/-- Source `Frame.ReadU16`: read a big-endian `u16` operand and advance `PC` by
2. -/
def Frame.readU16? (f : Frame) : Option (Nat × Frame) :=
  match f.byteAt f.pc, f.byteAt (f.pc + 1) with
  | some hi, some lo => some (hi * 256 + lo, { f with pc := f.pc + 2 })
  | _, _ => none

/-- Two's-complement reduction of an integer into the `int32` range
`[-2^31, 2^31)`: the semantics of Go's wrapping `int32` arithmetic. -/
def wrap32 (x : Int) : Int := (x + 2 ^ 31) % 2 ^ 32 - 2 ^ 31

/-- The mutable parts of the `VM` struct (`pkg/vm/instructions.go`):
`ClassLoader.LoadClass` as a pure name-to-class map (`none` = load error),
the static-field store, and the initialization ledger
(`initializedClasses`, the set of names mapped to `true`). -/
structure VMSt where
  loadClass : String → Option ClassFile
  staticFields : List (String × String × Value)
  initialized : String → Bool

/-- Source `getStaticFieldOk`: the two-level map lookup, `none` when the slot was
never set. -/
def getStaticFieldOk (vm : VMSt) (className fieldName : String) : Option Value :=
  (vm.staticFields.find? fun e => e.1 = className ∧ e.2.1 = fieldName).map (·.2.2)

/-- Source `defaultValueForDescriptor`: the descriptor-typed zero value pushed for
a never-written field slot. -/
def defaultValueForDescriptor (descriptor : String) : Value :=
  match descriptor.data with
  | [] => .vNull
  | c :: _ =>
    if c = 'L' ∨ c = '[' then .vNull
    else if c = 'F' then .vFloat 0
    else if c = 'D' then .vDouble 0
    else if c = 'J' then .vLong 0
    else .vInt 0

/-- A method-execution event: `(class, method)`; `ensureInitialized` emits
`(c, "<clinit>")` when it starts running the initializer of `c`. -/
abbrev RunEvent := String × String

/-- Argument of the combined initialization recursion: either initialize a
class (`ensureInitialized`) or run the remaining abstract `<clinit>` body
actions (the `executeMethod` call on the initializer). -/
inductive InitQ where
  | cls (cn : String)
  | ops (l : List ClinitOp)

/-- The class-initialization algorithm of `ensureInitialized`
(`pkg/vm/instructions.go`), fuelled.  On the `.cls` branch it follows the
source line by line: early return when the ledger already holds the name;
mark the name *before* anything else; on a load failure unmark and return
`nil`; initialize the superclass first, propagating its error unchanged;
then run `<clinit>` if present, passing a `*JavaException` through
unchanged and wrapping any other error with
`"error in <clinit> of ..."`.  The `.ops` branch runs the abstract body:
a `trigger` that fails surfaces as a wrapped host error (the triggering
opcode wraps with `%w` and the executing loop wraps again), and a thrown
Java exception ends the body as a `javaExc`.  Returns the updated state,
the error, and the list of initializer runs started. -/
def initRun : Nat → VMSt → InitQ → VMSt × Option GoError × List RunEvent
  | 0, vm, _ => (vm, some (.hostErr "out of fuel"), [])
  | fuel + 1, vm, .cls cn =>
    if vm.initialized cn then (vm, none, [])
    else
      let vm1 : VMSt := { vm with initialized := fun x => if x = cn then true else vm.initialized x }
      match vm1.loadClass cn with
      | none =>
        ({ vm1 with initialized := fun x => if x = cn then false else vm1.initialized x }, none, [])
      | some cf =>
        let sup := cf.superClassName
        let r1 := if sup ≠ "" then initRun fuel vm1 (.cls sup) else (vm1, none, [])
        match r1 with
        | (vm2, some e, evs) => (vm2, some e, evs)
        | (vm2, none, evs) =>
          match cf.clinitOps with
          | none => (vm2, none, evs)
          | some l =>
            match initRun fuel vm2 (.ops l) with
            | (vm3, none, evs2) => (vm3, none, evs ++ (cn, "<clinit>") :: evs2)
            | (vm3, some e, evs2) =>
              if (isJavaExc e).isSome then (vm3, some e, evs ++ (cn, "<clinit>") :: evs2)
              else
                (vm3, some (.wrapped ("error in <clinit> of " ++ cn) e),
                  evs ++ (cn, "<clinit>") :: evs2)
  | fuel + 1, vm, .ops [] => (vm, none, [])
  | fuel + 1, vm, .ops (op :: rest) =>
    match op with
    | .throwJava c => (vm, some (NewJavaException c), [])
    | .hostFail m => (vm, some (.hostErr m), [])
    | .trigger c =>
      match initRun fuel vm (.cls c) with
      | (vm2, some e, evs) => (vm2, some (.wrapped ("triggering " ++ c) e), evs)
      | (vm2, none, evs) =>
        match initRun fuel vm2 (.ops rest) with
        | (vm3, e2, evs2) => (vm3, e2, evs ++ evs2)

/-- Source `ensureInitialized`: run `<clinit>` for a class if it has not been run
yet. -/
def ensureInitialized (fuel : Nat) (vm : VMSt) (cn : String) :
    VMSt × Option GoError × List RunEvent :=
  initRun fuel vm (.cls cn)

/-- Argument of the combined assignability recursion mirroring
`isInstanceOfWithVisited`: the entry comparison/marking, the superclass
walk (`for current != ""`), and the per-class interface scan. -/
inductive InstQ where
  | top (objectClassName targetClassName : String)
  | chain (current targetClassName : String)
  | ifaces (idxs : List Nat) (pool : Pool) (targetClassName : String)

/-- Source `isInstanceOfWithVisited` (`pkg/vm/instructions.go`): the `visited` map
is shared by mutation in Go, so it is threaded through and returned.  All
recursive calls consume fuel; the properties proved below quantify over the
fuel. -/
def instOfRun (vm : VMSt) : Nat → List String → InstQ → Bool × List String
  | 0, visited, _ => (false, visited)
  | fuel + 1, visited, .top obj target =>
    if obj = target then (true, visited)
    else if visited.contains obj then (false, visited)
    else instOfRun vm fuel (obj :: visited) (.chain obj target)
  | fuel + 1, visited, .chain current target =>
    if current = "" then (false, visited)
    else
      match vm.loadClass current with
      | none => (false, visited)
      | some cf =>
        match instOfRun vm fuel visited (.ifaces cf.interfaces cf.pool target) with
        | (true, vis2) => (true, vis2)
        | (false, vis2) =>
          let nxt := cf.superClassName
          if nxt = target then (true, vis2)
          else instOfRun vm fuel vis2 (.chain nxt target)
  | fuel + 1, visited, .ifaces [] _ _ => (false, visited)
  | fuel + 1, visited, .ifaces (ifIdx :: rest) pool target =>
    match GetClassName pool ifIdx with
    | .error _ => instOfRun vm fuel visited (.ifaces rest pool target)
    | .ok ifName =>
      if ifName = target then (true, visited)
      else
        match instOfRun vm fuel visited (.top ifName target) with
        | (true, vis2) => (true, vis2)
        | (false, vis2) => instOfRun vm fuel vis2 (.ifaces rest pool target)

/-- Source `isInstanceOf`: assignability of `objectClassName` to
`targetClassName`, walking the superclass chain and interfaces. -/
def isInstanceOf (vm : VMSt) (fuel : Nat) (objectClassName targetClassName : String) : Bool :=
  (instOfRun vm fuel [] (.top objectClassName targetClassName)).1

/-- Source `findExceptionHandler` (`pkg/vm/instructions.go`): scan the exception
table in declared order; skip entries whose `[start_pc, end_pc)` range
misses the faulting pc; `catch_type` 0 is a catch-all; a `catch_type` whose
class-name resolution fails is skipped; otherwise match by
assignability of the exception's class. -/
def findExceptionHandler (ifuel : Nat) (vm : VMSt) (handlers : List ExceptionHandler)
    (pc : Int) (exc : JObj) (cf : ClassFile) : Option ExceptionHandler :=
  match handlers with
  | [] => none
  | h :: rest =>
    if pc < (h.startPC : Int) ∨ pc ≥ (h.endPC : Int) then
      findExceptionHandler ifuel vm rest pc exc cf
    else if h.catchType = 0 then some h
    else
      match GetClassName cf.pool h.catchType with
      | .error _ => findExceptionHandler ifuel vm rest pc exc cf
      | .ok catchClassName =>
        if isInstanceOf vm ifuel exc.className catchClassName then some h
        else findExceptionHandler ifuel vm rest pc exc cf

/-- Result of executing one instruction: the `(Value, bool, error)` triple
of `executeInstruction`, with Go panics as a separate outcome. -/
inductive StepRes where
  | ok (v : Value) (hasReturn : Bool)
  | err (e : GoError)
  | panicked (msg : String)

/-- An instruction dispatcher: `executeInstruction`'s shape — it receives
the VM and the frame (whose `PC` is already past the opcode byte) and the
opcode, and returns its outcome next to the mutated VM and frame. -/
abbrev Dispatch := VMSt → Frame → Nat → StepRes × VMSt × Frame

/-- Source `executeBranchUnary` (`pkg/vm/instructions.go`): the branch target is
the **opcode's own pc** (`frame.PC - 1` at entry, since the loop advanced
past the opcode byte) plus the signed 16-bit offset. -/
def executeBranchUnary (frame : Frame) (cond : Int → Bool) : StepRes × Frame :=
  let branchPC := frame.pc - 1
  match frame.readI16? with
  | none => (.panicked "index out of range", frame)
  | some (offset, f1) =>
    match f1.pop? with
    | none => (.panicked "operand stack underflow", f1)
    | some (v, f2) =>
      if cond v.intField then (.ok zeroValue false, { f2 with pc := branchPC + offset })
      else (.ok zeroValue false, f2)

/-- Source `executeBranchBinary`: pops `value2` then `value1` and branches to the
opcode's own pc plus the signed 16-bit offset. -/
def executeBranchBinary (frame : Frame) (cond : Int → Int → Bool) : StepRes × Frame :=
  let branchPC := frame.pc - 1
  match frame.readI16? with
  | none => (.panicked "index out of range", frame)
  | some (offset, f1) =>
    match f1.pop? with
    | none => (.panicked "operand stack underflow", f1)
    | some (v2, f2) =>
      match f2.pop? with
      | none => (.panicked "operand stack underflow", f2)
      | some (v1, f3) =>
        if cond v1.intField v2.intField then
          (.ok zeroValue false, { f3 with pc := branchPC + offset })
        else (.ok zeroValue false, f3)

/-- Pop two int operands and push the result of a wrapping binary
operation (the `iadd`/`isub`/`imul` pattern). -/
def executeArithBinary (frame : Frame) (op : Int → Int → Int) : StepRes × Frame :=
  match frame.pop? with
  | none => (.panicked "operand stack underflow", frame)
  | some (v2, f1) =>
    match f1.pop? with
    | none => (.panicked "operand stack underflow", f1)
    | some (v1, f2) =>
      (.ok zeroValue false, f2.push (.vInt (wrap32 (op v1.intField v2.intField))))

/-- Source `executeGetstatic` (`pkg/vm/instructions.go`): resolve the field
reference, trigger initialization — wrapping an initialization error with
`fmt.Errorf("getstatic: initializing %s: %w", ...)` —, special-case
`java/lang/System.out` to the sentinel print stream, and otherwise push the
stored static value or the descriptor-typed zero for a never-set slot. -/
def executeGetstatic (fuel : Nat) (vm : VMSt) (frame : Frame) : StepRes × VMSt × Frame :=
  match frame.readU16? with
  | none => (.panicked "index out of range", vm, frame)
  | some (index, f1) =>
    match ResolveFieldref f1.cls.pool index with
    | .error e => (.err (.wrapped "getstatic" (.hostErr e)), vm, f1)
    | .ok fieldRef =>
      match ensureInitialized fuel vm fieldRef.className with
      | (vm1, some e, _) =>
        (.err (.wrapped ("getstatic: initializing " ++ fieldRef.className) e), vm1, f1)
      | (vm1, none, _) =>
        if fieldRef.className = "java/lang/System" ∧ fieldRef.fieldName = "out" then
          (.ok zeroValue false, vm1, f1.push (.vRef .printStream))
        else
          match getStaticFieldOk vm1 fieldRef.className fieldRef.fieldName with
          | some val => (.ok zeroValue false, vm1, f1.push val)
          | none =>
            (.ok zeroValue false, vm1,
              f1.push (defaultValueForDescriptor fieldRef.descriptor))

/-- Source `executeGetfield`: resolve the field reference, pop the receiver — a
null (or non-reference) receiver raises a `NullPointerException` carrier, a
non-`JObject` reference is a host error —, then push the stored field or
the descriptor-typed zero when the object lacks the field. -/
def executeGetfield (vm : VMSt) (frame : Frame) : StepRes × VMSt × Frame :=
  match frame.readU16? with
  | none => (.panicked "index out of range", vm, frame)
  | some (index, f1) =>
    match ResolveFieldref f1.cls.pool index with
    | .error e => (.err (.wrapped "getfield" (.hostErr e)), vm, f1)
    | .ok fieldRef =>
      match f1.pop? with
      | none => (.panicked "operand stack underflow", vm, f1)
      | some (objectRef, f2) =>
        match objectRef.refField with
        | none => (.err (NewJavaException "java/lang/NullPointerException"), vm, f2)
        | some (.obj o) =>
          match (o.fields.find? fun e => e.1 = fieldRef.fieldName).map (·.2) with
          | none =>
            (.ok zeroValue false, vm, f2.push (defaultValueForDescriptor fieldRef.descriptor))
          | some val => (.ok zeroValue false, vm, f2.push val)
        | some _ => (.err (.hostErr "getfield: receiver is not a JObject"), vm, f2)

/-- Source `executeNew`: resolve the class name, trigger initialization — wrapping
an initialization error with `fmt.Errorf("new: initializing %s: %w", ...)`
—, then allocate an instance with an empty field map, except that a
`java/lang/StringBuilder` is allocated with its native `_buffer` field set
to the empty string.  `<init>` is not invoked. -/
def executeNew (fuel : Nat) (vm : VMSt) (frame : Frame) : StepRes × VMSt × Frame :=
  match frame.readU16? with
  | none => (.panicked "index out of range", vm, frame)
  | some (index, f1) =>
    match GetClassName f1.cls.pool index with
    | .error e => (.err (.wrapped "new" (.hostErr e)), vm, f1)
    | .ok className =>
      match ensureInitialized fuel vm className with
      | (vm1, some e, _) =>
        (.err (.wrapped ("new: initializing " ++ className) e), vm1, f1)
      | (vm1, none, _) =>
        let obj : JObj :=
          if className = "java/lang/StringBuilder" then
            .mk className [("_buffer", .vRef (.str []))]
          else .mk className []
        (.ok zeroValue false, vm1, f1.push (.vRef (.obj obj)))

/-- The instruction dispatcher for the opcodes the verified properties
exercise, following the `executeInstruction` `switch`.  Constant loads,
stack manipulation, wrapping `int` arithmetic, the conditional branches and
`goto`, the returns, and the field/object opcodes are taken from the
source.  The divide-by-zero path of `idiv`/`irem` is Modelled from the
spec: divisor zero raises an `ArithmeticException` generated as a
Java-exception carrier (the `executeInstruction` revision matching the
current execution loop is not part of the repository sources; its
Milestone-1 predecessor returned a host `fmt.Errorf` instead).  All opcodes
not listed fall to the default branch. -/
def executeInstr (fuel : Nat) (vm : VMSt) (frame : Frame) (opcode : Nat) :
    StepRes × VMSt × Frame :=
  if opcode = 0x01 then (.ok zeroValue false, vm, frame.push .vNull)
  else if opcode = 0x02 then (.ok zeroValue false, vm, frame.push (.vInt (-1)))
  else if opcode = 0x03 then (.ok zeroValue false, vm, frame.push (.vInt 0))
  else if opcode = 0x04 then (.ok zeroValue false, vm, frame.push (.vInt 1))
  else if opcode = 0x05 then (.ok zeroValue false, vm, frame.push (.vInt 2))
  else if opcode = 0x06 then (.ok zeroValue false, vm, frame.push (.vInt 3))
  else if opcode = 0x07 then (.ok zeroValue false, vm, frame.push (.vInt 4))
  else if opcode = 0x08 then (.ok zeroValue false, vm, frame.push (.vInt 5))
  else if opcode = 0x57 then
    match frame.pop? with
    | none => (.panicked "operand stack underflow", vm, frame)
    | some (_, f1) => (.ok zeroValue false, vm, f1)
  else if opcode = 0x59 then
    match frame.pop? with
    | none => (.panicked "operand stack underflow", vm, frame)
    | some (v, f1) => (.ok zeroValue false, vm, (f1.push v).push v)
  else if opcode = 0x60 then
    let (r, f') := executeArithBinary frame (· + ·)
    (r, vm, f')
  else if opcode = 0x64 then
    let (r, f') := executeArithBinary frame (· - ·)
    (r, vm, f')
  else if opcode = 0x68 then
    let (r, f') := executeArithBinary frame (· * ·)
    (r, vm, f')
  else if opcode = 0x6C then
    match frame.pop? with
    | none => (.panicked "operand stack underflow", vm, frame)
    | some (v2, f1) =>
      match f1.pop? with
      | none => (.panicked "operand stack underflow", vm, f1)
      | some (v1, f2) =>
        if v2.intField = 0 then
          (.err (NewJavaException "java/lang/ArithmeticException"), vm, f2)
        else
          (.ok zeroValue false, vm, f2.push (.vInt (wrap32 (v1.intField.tdiv v2.intField))))
  else if opcode = 0x70 then
    match frame.pop? with
    | none => (.panicked "operand stack underflow", vm, frame)
    | some (v2, f1) =>
      match f1.pop? with
      | none => (.panicked "operand stack underflow", vm, f1)
      | some (v1, f2) =>
        if v2.intField = 0 then
          (.err (NewJavaException "java/lang/ArithmeticException"), vm, f2)
        else
          (.ok zeroValue false, vm, f2.push (.vInt (wrap32 (v1.intField.tmod v2.intField))))
  else if opcode = 0x74 then
    match frame.pop? with
    | none => (.panicked "operand stack underflow", vm, frame)
    | some (v, f1) => (.ok zeroValue false, vm, f1.push (.vInt (wrap32 (-v.intField))))
  else if opcode = 0x99 then
    let (r, f') := executeBranchUnary frame (fun v => decide (v = 0))
    (r, vm, f')
  else if opcode = 0x9A then
    let (r, f') := executeBranchUnary frame (fun v => decide (v ≠ 0))
    (r, vm, f')
  else if opcode = 0x9B then
    let (r, f') := executeBranchUnary frame (fun v => decide (v < 0))
    (r, vm, f')
  else if opcode = 0x9C then
    let (r, f') := executeBranchUnary frame (fun v => decide (v ≥ 0))
    (r, vm, f')
  else if opcode = 0x9D then
    let (r, f') := executeBranchUnary frame (fun v => decide (v > 0))
    (r, vm, f')
  else if opcode = 0x9E then
    let (r, f') := executeBranchUnary frame (fun v => decide (v ≤ 0))
    (r, vm, f')
  else if opcode = 0x9F then
    let (r, f') := executeBranchBinary frame (fun a b => decide (a = b))
    (r, vm, f')
  else if opcode = 0xA0 then
    let (r, f') := executeBranchBinary frame (fun a b => decide (a ≠ b))
    (r, vm, f')
  else if opcode = 0xA1 then
    let (r, f') := executeBranchBinary frame (fun a b => decide (a < b))
    (r, vm, f')
  else if opcode = 0xA2 then
    let (r, f') := executeBranchBinary frame (fun a b => decide (a ≥ b))
    (r, vm, f')
  else if opcode = 0xA3 then
    let (r, f') := executeBranchBinary frame (fun a b => decide (a > b))
    (r, vm, f')
  else if opcode = 0xA4 then
    let (r, f') := executeBranchBinary frame (fun a b => decide (a ≤ b))
    (r, vm, f')
  else if opcode = 0xA7 then
    let branchPC := frame.pc - 1
    match frame.readI16? with
    | none => (.panicked "index out of range", vm, frame)
    | some (offset, f1) => (.ok zeroValue false, vm, { f1 with pc := branchPC + offset })
  else if opcode = 0xAC then
    match frame.pop? with
    | none => (.panicked "operand stack underflow", vm, frame)
    | some (v, f1) => (.ok v true, vm, f1)
  else if opcode = 0xB1 then (.ok zeroValue true, vm, frame)
  else if opcode = 0xB2 then executeGetstatic fuel vm frame
  else if opcode = 0xB4 then executeGetfield vm frame
  else if opcode = 0xBB then executeNew fuel vm frame
  else (.err (.hostErr ("unknown opcode: " ++ toString opcode)), vm, frame)

/-- Result of `executeMethod`: a returned value, a propagated error, or an
aborting panic (including fuel exhaustion of the model). -/
inductive LoopRes where
  | ret (v : Value)
  | err (e : GoError)
  | panicked (msg : String)

/-- Name and descriptor of the executing method, used in the loop's
diagnostic wrap. -/
structure MInfo where
  name : String
  descriptor : String

/-- The execution loop of `executeMethod` (`pkg/vm/instructions.go`),
parameterized by the instruction dispatcher.  While `pc < len(code)`:
remember the opcode's pc, advance past the opcode byte, dispatch.  On an
error that is not a `*JavaException` (by type assertion), wrap with method
context and return.  On a `*JavaException`, search the exception table; on
a match clear the operand stack, push the exception object reference, set
`pc` to `handler_pc` and continue; otherwise propagate the exception value
unchanged.  `ifuel` feeds the assignability search, `dfuel` the nested
initialization done by dispatched opcodes. -/
def executeMethodLoop (dispatch : Dispatch) (ifuel : Nat) (codeAttr : CodeAttr)
    (m : MInfo) (cf : ClassFile) : Nat → VMSt → Frame → LoopRes
  | 0, _, _ => .panicked "out of fuel"
  | fuel + 1, vm, frame =>
    if frame.pc < (frame.code.length : Int) then
      match frame.byteAt frame.pc with
      | none => .panicked "index out of range"
      | some opcode =>
        let instructionPC := frame.pc
        let f1 : Frame := { frame with pc := frame.pc + 1 }
        match dispatch vm f1 opcode with
        | (.panicked msg, _, _) => .panicked msg
        | (.err e, vm2, f2) =>
          match isJavaExc e with
          | none =>
            .err (.wrapped ("in " ++ cf.classNameStr ++ "." ++ m.name ++ ":" ++
              m.descriptor ++ " at PC=" ++ toString instructionPC) e)
          | some excObj =>
            match findExceptionHandler ifuel vm2 codeAttr.handlers instructionPC excObj cf with
            | some handler =>
              executeMethodLoop dispatch ifuel codeAttr m cf fuel vm2
                { f2 with stack := [.vRef (.obj excObj)], pc := (handler.handlerPC : Int) }
            | none => .err e
        | (.ok retVal hasReturn, vm2, f2) =>
          if hasReturn then .ret retVal
          else executeMethodLoop dispatch ifuel codeAttr m cf fuel vm2 f2
    else .ret zeroValue

/-! ## Class loaders (`pkg/vm/classloader.go`)

`*ClassFile` pointer identity is modelled by allocation numbers: every
successful parse allocates a fresh number from a monotone counter, so two
results are the identical heap object exactly when their numbers are
equal.  The file system and the archive contents are a fixed world. -/

/-- The immutable surroundings of the loaders: whether the jmod file can be
opened and read, which entry names the archive holds and which of them
parse, and which classpath files parse (`none` = open or parse failure). -/
structure LoaderWorld where
  jmodReadable : Bool
  jmodHasEntry : String → Bool
  jmodParses : String → Bool
  diskParses : String → Bool

/-- Mutable loader state: the lazily created zip reader flag of
`JmodClassLoader`, both caches (name → allocation number), and the
allocation counter. -/
structure LoaderSt where
  zipLoaded : Bool
  jmodCache : List (String × Nat)
  userCache : List (String × Nat)
  nextAlloc : Nat

/-- Source `JmodClassLoader.ensureZipReader`: open, read and index the archive
once; later calls are no-ops. -/
def ensureZipReader (w : LoaderWorld) (st : LoaderSt) : Bool × LoaderSt :=
  if st.zipLoaded then (true, st)
  else if w.jmodReadable then (true, { st with zipLoaded := true })
  else (false, st)

/-- Source `JmodClassLoader.LoadClass`: serve from the cache; otherwise ensure the
zip reader, look up `classes/<name>.class`, parse it (allocating a fresh
`*ClassFile`), cache by name and return it.  `Except.error` is the
distinct class-not-found / parse error. -/
def jmodLoadClass (w : LoaderWorld) (st : LoaderSt) (name : String) :
    Except String Nat × LoaderSt :=
  match st.jmodCache.find? (fun e => e.1 = name) with
  | some e => (.ok e.2, st)
  | none =>
    match ensureZipReader w st with
    | (false, st1) => (.error "jmod: opening", st1)
    | (true, st1) =>
      let target := "classes/" ++ name ++ ".class"
      if w.jmodHasEntry target then
        if w.jmodParses target then
          (.ok st1.nextAlloc,
            { st1 with jmodCache := (name, st1.nextAlloc) :: st1.jmodCache,
                       nextAlloc := st1.nextAlloc + 1 })
        else (.error ("jmod: parsing " ++ name), st1)
      else (.error ("jmod: class " ++ name ++ " not found"), st1)

/-- Source `UserClassLoader.LoadClass`: serve from the cache; otherwise delegate
to the parent (jmod) loader and return its hit *without* filling the own
cache; on parent failure parse `<classpath>/<name>.class` (allocating a
fresh `*ClassFile`), cache and return it. -/
def userLoadClass (w : LoaderWorld) (st : LoaderSt) (name : String) :
    Except String Nat × LoaderSt :=
  match st.userCache.find? (fun e => e.1 = name) with
  | some e => (.ok e.2, st)
  | none =>
    match jmodLoadClass w st name with
    | (.ok cf, st1) => (.ok cf, st1)
    | (.error _, st1) =>
      if w.diskParses name then
        (.ok st1.nextAlloc,
          { st1 with userCache := (name, st1.nextAlloc) :: st1.userCache,
                     nextAlloc := st1.nextAlloc + 1 })
      else (.error ("user: class " ++ name ++ " not found"), st1)

/-! ## Native string methods (`handleStringMethod`, `pkg/vm/instructions.go`)

The receiver of an intercepted `String` method is a host string, modelled
as its character list (`len` and indexing agree with Go's byte view on the
programs under test).  Only the intercepted methods the verified
properties exercise are embedded (`length`, `charAt`, `substring`); the
remaining cases of the source `switch` are never invoked by them. -/

/-- The source `handleStringMethod` for `length`, `charAt` and both `substring`
overloads: out-of-range indices raise a
`java/lang/StringIndexOutOfBoundsException` Java-exception carrier;
in-range calls return the value. -/
def handleStringMethod (s : List Char) (methodName descriptor : String)
    (args : List Value) : Except GoError Value :=
  if methodName = "length" then .ok (.vInt s.length)
  else if methodName = "charAt" then
    match args with
    | [] => .error (.hostErr "index out of range")
    | a :: _ =>
      let idx := a.intField
      if idx < 0 ∨ idx ≥ (s.length : Int) then
        .error (NewJavaException "java/lang/StringIndexOutOfBoundsException")
      else .ok (.vInt (s.getD idx.toNat ' ').toNat)
  else if methodName = "substring" then
    if descriptor = "(I)Ljava/lang/String;" then
      match args with
      | [] => .error (.hostErr "index out of range")
      | a :: _ =>
        let begin' := a.intField
        if begin' < 0 ∨ begin' > (s.length : Int) then
          .error (NewJavaException "java/lang/StringIndexOutOfBoundsException")
        else .ok (.vRef (.str (s.drop begin'.toNat)))
    else
      match args with
      | a :: b :: _ =>
        let begin' := a.intField
        let end' := b.intField
        if begin' < 0 ∨ end' > (s.length : Int) ∨ begin' > end' then
          .error (NewJavaException "java/lang/StringIndexOutOfBoundsException")
        else .ok (.vRef (.str ((s.take end'.toNat).drop begin'.toNat)))
      | _ => .error (.hostErr "index out of range")
  else .error (.hostErr ("String method not implemented: " ++ methodName))

/-! ## Shared concrete fixtures for witnesses -/

/-- A class file with an empty pool; enough for opcodes that do not touch
the pool. -/
def clsEmpty : ClassFile := ⟨[], 0, 0, [], none⟩

/-- A VM whose loader finds nothing and whose stores are empty. -/
def vmNoLoad : VMSt := ⟨fun _ => none, [], fun _ => false⟩

/-- An empty frame over `clsEmpty`. -/
def frame0 : Frame := ⟨[], [], [], 0, clsEmpty⟩

/-! ## Claims -/

/-- Claim C7: the int arithmetic opcodes `iadd`, `isub`, `imul`, `idiv`,
`irem`, `ineg` follow two's-complement wrap-around (modulo `2^32`)
semantics for all operand values; in particular `Int.MIN / -1 == Int.MIN`
and the division neither traps nor aborts the VM.  `wrap32` is the
reduction into `[-2^31, 2^31)` that agrees with the exact integer result
modulo `2^32`; division and remainder truncate toward zero
(`Int.tdiv`/`Int.tmod`), as in Go and Java. -/
theorem c7_int_arithmetic_wraps (fuel : Nat) (vm : VMSt) (frame : Frame) (a b : Int) :
    (wrap32 (a + b) % 2 ^ 32 = (a + b) % 2 ^ 32 ∧
      -2 ^ 31 ≤ wrap32 (a + b) ∧ wrap32 (a + b) < 2 ^ 31) ∧
    executeInstr fuel vm { frame with stack := .vInt b :: .vInt a :: frame.stack } 0x60 =
      (.ok zeroValue false, vm, { frame with stack := .vInt (wrap32 (a + b)) :: frame.stack }) ∧
    executeInstr fuel vm { frame with stack := .vInt b :: .vInt a :: frame.stack } 0x64 =
      (.ok zeroValue false, vm, { frame with stack := .vInt (wrap32 (a - b)) :: frame.stack }) ∧
    executeInstr fuel vm { frame with stack := .vInt b :: .vInt a :: frame.stack } 0x68 =
      (.ok zeroValue false, vm, { frame with stack := .vInt (wrap32 (a * b)) :: frame.stack }) ∧
    executeInstr fuel vm { frame with stack := .vInt a :: frame.stack } 0x74 =
      (.ok zeroValue false, vm, { frame with stack := .vInt (wrap32 (-a)) :: frame.stack }) ∧
    (b ≠ 0 →
      executeInstr fuel vm { frame with stack := .vInt b :: .vInt a :: frame.stack } 0x6C =
        (.ok zeroValue false, vm,
          { frame with stack := .vInt (wrap32 (a.tdiv b)) :: frame.stack }) ∧
      executeInstr fuel vm { frame with stack := .vInt b :: .vInt a :: frame.stack } 0x70 =
        (.ok zeroValue false, vm,
          { frame with stack := .vInt (wrap32 (a.tmod b)) :: frame.stack })) ∧
    executeInstr fuel vm
        { frame with stack := .vInt (-1) :: .vInt (-(2 ^ 31)) :: frame.stack } 0x6C =
      (.ok zeroValue false, vm, { frame with stack := .vInt (-(2 ^ 31)) :: frame.stack }) := by
  refine ⟨⟨?_, ?_, ?_⟩, ?_, ?_, ?_, ?_, fun hb => ⟨?_, ?_⟩, ?_⟩
  · unfold wrap32; omega
  · unfold wrap32; omega
  · unfold wrap32; omega
  · rfl
  · rfl
  · rfl
  · rfl
  · simp only [executeInstr, Frame.pop?, Value.intField, if_neg hb]
    norm_num
    rfl
  · simp only [executeInstr, Frame.pop?, Value.intField, if_neg hb]
    norm_num
    rfl
  · have h32 : wrap32 2147483648 = -2147483648 := by decide
    simp only [executeInstr, Frame.pop?, Value.intField]
    norm_num
    simp [Frame.push, h32]

/-- Witness for C7: `7 / 2 = 3` under `idiv`, and
`Int.MIN / -1 = Int.MIN` without error, at concrete inputs. -/
theorem c7_int_arithmetic_wraps_witness :
    executeInstr 1 vmNoLoad { frame0 with stack := [.vInt 2, .vInt 7] } 0x6C =
      (.ok zeroValue false, vmNoLoad,
        { frame0 with stack := [.vInt (wrap32 (Int.tdiv 7 2))] }) ∧
    executeInstr 1 vmNoLoad { frame0 with stack := [.vInt (-1), .vInt (-(2 ^ 31))] } 0x6C =
      (.ok zeroValue false, vmNoLoad, { frame0 with stack := [.vInt (-(2 ^ 31))] }) :=
  ⟨((c7_int_arithmetic_wraps 1 vmNoLoad frame0 7 2).2.2.2.2.2.1 (by decide)).1,
   (c7_int_arithmetic_wraps 1 vmNoLoad frame0 7 2).2.2.2.2.2.2⟩

/-- Helper: a taken unary branch jumps to the opcode's own pc plus the
signed 16-bit offset. -/
theorem branchUnary_taken (frame : Frame) (p : Int) (hi lo : Nat) (v : Value)
    (rest : List Value) (cond : Int → Bool)
    (hpc : frame.pc = p + 1)
    (hhi : frame.byteAt (p + 1) = some hi)
    (hlo : frame.byteAt (p + 2) = some lo)
    (hstk : frame.stack = v :: rest)
    (hcond : cond v.intField = true) :
    executeBranchUnary frame cond =
      (.ok zeroValue false, { frame with stack := rest, pc := p + i16val hi lo }) := by
  obtain ⟨loc, stk, cod, pc0, cls0⟩ := frame
  simp only at hpc hstk
  subst hpc; subst hstk
  have h2 : p + 1 + 1 = p + 2 := by ring
  unfold executeBranchUnary Frame.readI16?
  simp only [h2]
  simp only [Frame.byteAt] at hhi hlo ⊢
  simp only [hhi, hlo, Frame.pop?, hcond, if_pos]
  have h3 : p + 1 - 1 = p := by ring
  simp [h3]

/-- Helper: a taken binary branch (popping `value2` then `value1`) jumps to
the opcode's own pc plus the signed 16-bit offset. -/
theorem branchBinary_taken (frame : Frame) (p : Int) (hi lo : Nat) (v1 v2 : Value)
    (rest : List Value) (cond : Int → Int → Bool)
    (hpc : frame.pc = p + 1)
    (hhi : frame.byteAt (p + 1) = some hi)
    (hlo : frame.byteAt (p + 2) = some lo)
    (hstk : frame.stack = v2 :: v1 :: rest)
    (hcond : cond v1.intField v2.intField = true) :
    executeBranchBinary frame cond =
      (.ok zeroValue false, { frame with stack := rest, pc := p + i16val hi lo }) := by
  obtain ⟨loc, stk, cod, pc0, cls0⟩ := frame
  simp only at hpc hstk
  subst hpc; subst hstk
  have h2 : p + 1 + 1 = p + 2 := by ring
  unfold executeBranchBinary Frame.readI16?
  simp only [h2]
  simp only [Frame.byteAt] at hhi hlo ⊢
  simp only [hhi, hlo, Frame.pop?, hcond, if_pos]
  have h3 : p + 1 - 1 = p := by ring
  simp [h3]

/-- Claim C6: for every conditional branch (`ifeq`, `ifne`, `iflt`, `ifge`,
`ifgt`, `ifle`, `if_icmpeq`, `if_icmpne`, `if_icmplt`, `if_icmpge`,
`if_icmpgt`, `if_icmple`) and for `goto`, the signed 16-bit offset
(`i16val hi lo`, in `[-32768, 32768)`) is added to the pc `p` of the
opcode's own byte — not to the address `p + 3` following the operand — to
compute the branch target.  The frame enters the dispatcher with
`pc = p + 1` (the loop has advanced past the opcode byte) and the operand
bytes sit at `p + 1` and `p + 2`. -/
theorem c6_branch_offsets_relative_to_opcode (fuel : Nat) (vm : VMSt) (frame : Frame)
    (p : Int) (hi lo : Nat) (v1 v2 : Int) (rest : List Value)
    (hpc : frame.pc = p + 1)
    (hhi : frame.byteAt (p + 1) = some hi)
    (hlo : frame.byteAt (p + 2) = some lo)
    (hbhi : hi < 256) (hblo : lo < 256) :
    (-32768 ≤ i16val hi lo ∧ i16val hi lo < 32768) ∧
    executeInstr fuel vm frame 0xA7 =
      (.ok zeroValue false, vm, { frame with pc := p + i16val hi lo }) ∧
    (frame.stack = .vInt v1 :: rest →
      (v1 = 0 → executeInstr fuel vm frame 0x99 =
        (.ok zeroValue false, vm,
          { frame with stack := rest, pc := p + i16val hi lo })) ∧
      (¬v1 = 0 → executeInstr fuel vm frame 0x9A =
        (.ok zeroValue false, vm,
          { frame with stack := rest, pc := p + i16val hi lo })) ∧
      (v1 < 0 → executeInstr fuel vm frame 0x9B =
        (.ok zeroValue false, vm,
          { frame with stack := rest, pc := p + i16val hi lo })) ∧
      (0 ≤ v1 → executeInstr fuel vm frame 0x9C =
        (.ok zeroValue false, vm,
          { frame with stack := rest, pc := p + i16val hi lo })) ∧
      (0 < v1 → executeInstr fuel vm frame 0x9D =
        (.ok zeroValue false, vm,
          { frame with stack := rest, pc := p + i16val hi lo })) ∧
      (v1 ≤ 0 → executeInstr fuel vm frame 0x9E =
        (.ok zeroValue false, vm,
          { frame with stack := rest, pc := p + i16val hi lo }))) ∧
    (frame.stack = .vInt v2 :: .vInt v1 :: rest →
      (v1 = v2 → executeInstr fuel vm frame 0x9F =
        (.ok zeroValue false, vm,
          { frame with stack := rest, pc := p + i16val hi lo })) ∧
      (¬v1 = v2 → executeInstr fuel vm frame 0xA0 =
        (.ok zeroValue false, vm,
          { frame with stack := rest, pc := p + i16val hi lo })) ∧
      (v1 < v2 → executeInstr fuel vm frame 0xA1 =
        (.ok zeroValue false, vm,
          { frame with stack := rest, pc := p + i16val hi lo })) ∧
      (v2 ≤ v1 → executeInstr fuel vm frame 0xA2 =
        (.ok zeroValue false, vm,
          { frame with stack := rest, pc := p + i16val hi lo })) ∧
      (v2 < v1 → executeInstr fuel vm frame 0xA3 =
        (.ok zeroValue false, vm,
          { frame with stack := rest, pc := p + i16val hi lo })) ∧
      (v1 ≤ v2 → executeInstr fuel vm frame 0xA4 =
        (.ok zeroValue false, vm,
          { frame with stack := rest, pc := p + i16val hi lo }))) := by
  refine ⟨⟨?_, ?_⟩, ?_, ?_, ?_⟩
  · unfold i16val; split <;> omega
  · unfold i16val; split <;> omega
  · obtain ⟨loc, stk, cod, pc0, cls0⟩ := frame
    simp only at hpc hhi hlo
    subst hpc
    have h2 : p + 1 + 1 = p + 2 := by ring
    have h3 : p + 1 - 1 = p := by ring
    show (match Frame.readI16? _ with
      | none => (StepRes.panicked "index out of range", vm, _)
      | some (offset, f1) => (.ok zeroValue false, vm, { f1 with pc := p + 1 - 1 + offset })) = _
    unfold Frame.readI16?
    simp only [h2]
    simp only [Frame.byteAt] at hhi hlo ⊢
    simp only [hhi, hlo, h3]
  · intro hstk
    refine ⟨fun h => ?_, fun h => ?_, fun h => ?_, fun h => ?_, fun h => ?_, fun h => ?_⟩
    · rw [show executeInstr fuel vm frame 0x99 =
            (match executeBranchUnary frame (fun v => decide (v = 0)) with
              | (r, f') => (r, vm, f')) from rfl,
          branchUnary_taken frame p hi lo (.vInt v1) rest _ hpc hhi hlo hstk
            (by simp only [Value.intField, decide_eq_true_eq]; exact h)]
    · rw [show executeInstr fuel vm frame 0x9A =
            (match executeBranchUnary frame (fun v => decide (v ≠ 0)) with
              | (r, f') => (r, vm, f')) from rfl,
          branchUnary_taken frame p hi lo (.vInt v1) rest _ hpc hhi hlo hstk
            (by simp only [Value.intField, decide_eq_true_eq]; exact h)]
    · rw [show executeInstr fuel vm frame 0x9B =
            (match executeBranchUnary frame (fun v => decide (v < 0)) with
              | (r, f') => (r, vm, f')) from rfl,
          branchUnary_taken frame p hi lo (.vInt v1) rest _ hpc hhi hlo hstk
            (by simp only [Value.intField, decide_eq_true_eq]; exact h)]
    · rw [show executeInstr fuel vm frame 0x9C =
            (match executeBranchUnary frame (fun v => decide (v ≥ 0)) with
              | (r, f') => (r, vm, f')) from rfl,
          branchUnary_taken frame p hi lo (.vInt v1) rest _ hpc hhi hlo hstk
            (by simp only [Value.intField, decide_eq_true_eq]; exact h)]
    · rw [show executeInstr fuel vm frame 0x9D =
            (match executeBranchUnary frame (fun v => decide (v > 0)) with
              | (r, f') => (r, vm, f')) from rfl,
          branchUnary_taken frame p hi lo (.vInt v1) rest _ hpc hhi hlo hstk
            (by simp only [Value.intField, decide_eq_true_eq]; exact h)]
    · rw [show executeInstr fuel vm frame 0x9E =
            (match executeBranchUnary frame (fun v => decide (v ≤ 0)) with
              | (r, f') => (r, vm, f')) from rfl,
          branchUnary_taken frame p hi lo (.vInt v1) rest _ hpc hhi hlo hstk
            (by simp only [Value.intField, decide_eq_true_eq]; exact h)]
  · intro hstk
    refine ⟨fun h => ?_, fun h => ?_, fun h => ?_, fun h => ?_, fun h => ?_, fun h => ?_⟩
    · rw [show executeInstr fuel vm frame 0x9F =
            (match executeBranchBinary frame (fun a b => decide (a = b)) with
              | (r, f') => (r, vm, f')) from rfl,
          branchBinary_taken frame p hi lo (.vInt v1) (.vInt v2) rest _ hpc hhi hlo hstk
            (by simp only [Value.intField, decide_eq_true_eq]; exact h)]
    · rw [show executeInstr fuel vm frame 0xA0 =
            (match executeBranchBinary frame (fun a b => decide (a ≠ b)) with
              | (r, f') => (r, vm, f')) from rfl,
          branchBinary_taken frame p hi lo (.vInt v1) (.vInt v2) rest _ hpc hhi hlo hstk
            (by simp only [Value.intField, decide_eq_true_eq]; exact h)]
    · rw [show executeInstr fuel vm frame 0xA1 =
            (match executeBranchBinary frame (fun a b => decide (a < b)) with
              | (r, f') => (r, vm, f')) from rfl,
          branchBinary_taken frame p hi lo (.vInt v1) (.vInt v2) rest _ hpc hhi hlo hstk
            (by simp only [Value.intField, decide_eq_true_eq]; exact h)]
    · rw [show executeInstr fuel vm frame 0xA2 =
            (match executeBranchBinary frame (fun a b => decide (a ≥ b)) with
              | (r, f') => (r, vm, f')) from rfl,
          branchBinary_taken frame p hi lo (.vInt v1) (.vInt v2) rest _ hpc hhi hlo hstk
            (by simp only [Value.intField, decide_eq_true_eq]; exact h)]
    · rw [show executeInstr fuel vm frame 0xA3 =
            (match executeBranchBinary frame (fun a b => decide (a > b)) with
              | (r, f') => (r, vm, f')) from rfl,
          branchBinary_taken frame p hi lo (.vInt v1) (.vInt v2) rest _ hpc hhi hlo hstk
            (by simp only [Value.intField, decide_eq_true_eq]; exact h)]
    · rw [show executeInstr fuel vm frame 0xA4 =
            (match executeBranchBinary frame (fun a b => decide (a ≤ b)) with
              | (r, f') => (r, vm, f')) from rfl,
          branchBinary_taken frame p hi lo (.vInt v1) (.vInt v2) rest _ hpc hhi hlo hstk
            (by simp only [Value.intField, decide_eq_true_eq]; exact h)]

/-- A concrete frame for the C6 witness: `ifeq +5` at pc 0, already past the
opcode byte, with operand bytes `00 05` and a zero on the stack. -/
def frameC6 : Frame :=
  { frame0 with code := [0x99, 0x00, 0x05, 0xB1], pc := 1, stack := [.vInt 0] }

/-- Witness for C6: the taken `ifeq` at pc 0 with offset 5 lands on pc 5
(the opcode's own pc plus the offset), not on pc 8. -/
theorem c6_branch_offsets_relative_to_opcode_witness :
    executeInstr 1 vmNoLoad frameC6 0x99 =
      (.ok zeroValue false, vmNoLoad, { frameC6 with stack := [], pc := 5 }) :=
  ((c6_branch_offsets_relative_to_opcode 1 vmNoLoad frameC6 0 0 5 0 0 []
      rfl rfl rfl (by decide) (by decide)).2.2.1 rfl).1 rfl

/-- Pool for the C2 fixture: entry 1 is a class ref to the UTF-8 name
`java/lang/ArithmeticException` at entry 2. -/
def poolC2 : Pool :=
  [none, some (.cls 2), some (.utf8 "java/lang/ArithmeticException")]

/-- Class of the C2 fixture method. -/
def clsC2 : ClassFile := ⟨poolC2, 0, 0, [], none⟩

/-- Bytecode of the C2 fixture: `iconst_5; iconst_0; idiv; ireturn` guarded
by a handler over `[0, 3)` that catches `ArithmeticException` at pc 4,
where `pop; iconst_m1; ireturn` returns `-1`. -/
def codeC2 : List Nat := [0x08, 0x03, 0x6C, 0xAC, 0x57, 0x02, 0xAC]

/-- Code attribute of the C2 fixture. -/
def codeAttrC2 : CodeAttr := ⟨10, 1, codeC2, [⟨0, 3, 4, 1⟩]⟩

/-- Entry frame of the C2 fixture. -/
def frameC2 : Frame := ⟨[], [], codeC2, 0, clsC2⟩

/-- Claim C2: `idiv`/`irem` with popped divisor zero raise an
`ArithmeticException` generated as a Java-exception carrier — the
discriminated type the `err.(*JavaException)` assertion recognizes — not a
host error string; composed with the execution loop, a method dividing by
zero under a matching handler is caught and returns normally. -/
theorem c2_idiv_by_zero_java_exception (fuel : Nat) (vm : VMSt) (frame : Frame) (a : Int) :
    executeInstr fuel vm { frame with stack := .vInt 0 :: .vInt a :: frame.stack } 0x6C =
      (.err (NewJavaException "java/lang/ArithmeticException"), vm, frame) ∧
    executeInstr fuel vm { frame with stack := .vInt 0 :: .vInt a :: frame.stack } 0x70 =
      (.err (NewJavaException "java/lang/ArithmeticException"), vm, frame) ∧
    isJavaExc (NewJavaException "java/lang/ArithmeticException") =
      some (.mk "java/lang/ArithmeticException" []) ∧
    executeMethodLoop (executeInstr 1) 1 codeAttrC2 ⟨"safeDivide", "()I"⟩ clsC2
        10 vmNoLoad frameC2 = .ret (.vInt (-1)) :=
  ⟨rfl, rfl, rfl, rfl⟩

/-- Claim C10: intercepted `String.charAt` with index out of `[0, length)`
and `substring` with `begin < 0`, `end > length` or `begin > end` raise a
Java-exception carrier of class
`java/lang/StringIndexOutOfBoundsException`; in-range calls return
normally without error. -/
theorem c10_string_index_out_of_bounds (s : List Char) (i j : Int) (d : String) :
    (i < 0 ∨ i ≥ (s.length : Int) →
      handleStringMethod s "charAt" d [.vInt i] =
        .error (NewJavaException "java/lang/StringIndexOutOfBoundsException")) ∧
    (0 ≤ i → i < (s.length : Int) →
      handleStringMethod s "charAt" d [.vInt i] =
        .ok (.vInt (s.getD i.toNat ' ').toNat)) ∧
    (i < 0 ∨ i > (s.length : Int) →
      handleStringMethod s "substring" "(I)Ljava/lang/String;" [.vInt i] =
        .error (NewJavaException "java/lang/StringIndexOutOfBoundsException")) ∧
    (0 ≤ i → i ≤ (s.length : Int) →
      handleStringMethod s "substring" "(I)Ljava/lang/String;" [.vInt i] =
        .ok (.vRef (.str (s.drop i.toNat)))) ∧
    (i < 0 ∨ j > (s.length : Int) ∨ i > j →
      handleStringMethod s "substring" "(II)Ljava/lang/String;" [.vInt i, .vInt j] =
        .error (NewJavaException "java/lang/StringIndexOutOfBoundsException")) ∧
    (0 ≤ i → j ≤ (s.length : Int) → i ≤ j →
      handleStringMethod s "substring" "(II)Ljava/lang/String;" [.vInt i, .vInt j] =
        .ok (.vRef (.str ((s.take j.toNat).drop i.toNat)))) ∧
    isJavaExc (NewJavaException "java/lang/StringIndexOutOfBoundsException") =
      some (.mk "java/lang/StringIndexOutOfBoundsException" []) := by
  have echar : handleStringMethod s "charAt" d [.vInt i] =
      (if i < 0 ∨ i ≥ (s.length : Int) then
        .error (NewJavaException "java/lang/StringIndexOutOfBoundsException")
      else .ok (.vInt (s.getD i.toNat ' ').toNat)) := rfl
  have esub1 : handleStringMethod s "substring" "(I)Ljava/lang/String;" [.vInt i] =
      (if i < 0 ∨ i > (s.length : Int) then
        .error (NewJavaException "java/lang/StringIndexOutOfBoundsException")
      else .ok (.vRef (.str (s.drop i.toNat)))) := rfl
  have esub2 : handleStringMethod s "substring" "(II)Ljava/lang/String;"
      [.vInt i, .vInt j] =
      (if i < 0 ∨ j > (s.length : Int) ∨ i > j then
        .error (NewJavaException "java/lang/StringIndexOutOfBoundsException")
      else .ok (.vRef (.str ((s.take j.toNat).drop i.toNat)))) := rfl
  refine ⟨fun h => ?_, fun h1 h2 => ?_, fun h => ?_, fun h1 h2 => ?_,
    fun h => ?_, fun h1 h2 h3 => ?_, rfl⟩
  · rw [echar, if_pos h]
  · rw [echar, if_neg (by omega)]
  · rw [esub1, if_pos h]
  · rw [esub1, if_neg (by omega)]
  · rw [esub2, if_pos h]
  · rw [esub2, if_neg (by omega)]

/-- Witness for C10 at the concrete string `"ab"`: `charAt 2` raises the
`StringIndexOutOfBoundsException` carrier, `charAt 1` returns the char
code, and `substring 1 0` raises. -/
theorem c10_string_index_out_of_bounds_witness :
    handleStringMethod ['a', 'b'] "charAt" "(I)C" [.vInt 2] =
      .error (NewJavaException "java/lang/StringIndexOutOfBoundsException") ∧
    handleStringMethod ['a', 'b'] "charAt" "(I)C" [.vInt 1] = .ok (.vInt 98) ∧
    handleStringMethod ['a', 'b'] "substring" "(II)Ljava/lang/String;"
        [.vInt 1, .vInt 0] =
      .error (NewJavaException "java/lang/StringIndexOutOfBoundsException") :=
  ⟨(c10_string_index_out_of_bounds ['a', 'b'] 2 0 "(I)C").1 (by norm_num),
   (c10_string_index_out_of_bounds ['a', 'b'] 1 0 "(I)C").2.1 (by norm_num) (by norm_num),
   (c10_string_index_out_of_bounds ['a', 'b'] 1 0 "(I)C").2.2.2.2.1 (by norm_num)⟩

/-- Helper: a successful jmod load is repeatable — the second call hits the
cache and returns the same `*ClassFile` (same allocation) without changing
the state. -/
theorem jmodLoad_idempotent (w : LoaderWorld) (st st' : LoaderSt) (name : String)
    (cf : Nat) (h : jmodLoadClass w st name = (.ok cf, st')) :
    jmodLoadClass w st' name = (.ok cf, st') := by
  unfold jmodLoadClass at h ⊢
  rcases hfind : st.jmodCache.find? (fun e => e.1 = name) with _ | e <;> rw [hfind] at h
  · rcases hz : ensureZipReader w st with ⟨fl, st1⟩
    rw [hz] at h
    cases fl
    · simp at h
    · dsimp only at h
      by_cases hent : w.jmodHasEntry ("classes/" ++ name ++ ".class") = true
      · rw [if_pos hent] at h
        by_cases hpar : w.jmodParses ("classes/" ++ name ++ ".class") = true
        · rw [if_pos hpar] at h
          simp only [Prod.mk.injEq, Except.ok.injEq] at h
          obtain ⟨h1, h2⟩ := h
          subst h1; subst h2
          simp [List.find?]
        · rw [if_neg hpar] at h; simp at h
      · rw [if_neg hent] at h; simp at h
  · dsimp only at h
    simp only [Prod.mk.injEq, Except.ok.injEq] at h
    obtain ⟨h1, h2⟩ := h
    subst h1; subst h2
    rw [hfind]

/-- Helper: `JmodClassLoader.LoadClass` never touches the user loader\'s
cache. -/
theorem jmodLoad_preserves_userCache (w : LoaderWorld) (st : LoaderSt) (name : String) :
    (jmodLoadClass w st name).2.userCache = st.userCache := by
  unfold jmodLoadClass
  rcases hfind : st.jmodCache.find? (fun e => e.1 = name) with _ | e <;> rw [hfind]
  · rcases hz : ensureZipReader w st with ⟨fl, st1⟩
    have hz1 : st1.userCache = st.userCache := by
      unfold ensureZipReader at hz
      by_cases h1 : st.zipLoaded = true
      · rw [if_pos h1] at hz; cases hz; rfl
      · rw [if_neg h1] at hz
        by_cases h2 : w.jmodReadable = true
        · rw [if_pos h2] at hz; cases hz; rfl
        · rw [if_neg h2] at hz; cases hz; rfl
    cases fl
    · dsimp only; exact hz1
    · dsimp only
      by_cases hent : w.jmodHasEntry ("classes/" ++ name ++ ".class") = true
      · rw [if_pos hent]
        by_cases hpar : w.jmodParses ("classes/" ++ name ++ ".class") = true
        · rw [if_pos hpar]; exact hz1
        · rw [if_neg hpar]; exact hz1
      · rw [if_neg hent]; exact hz1

/-- Claim C8: for both loaders — the jmod module-archive loader and the
directory-backed user loader — two consecutive successful `LoadClass`
calls with the same fully-qualified name return the identical `*ClassFile`
object (the same allocation number), for every class name. -/
theorem c8_loader_cache_identity (w : LoaderWorld) (st st' : LoaderSt) (name : String)
    (cf : Nat) :
    (jmodLoadClass w st name = (.ok cf, st') → jmodLoadClass w st' name = (.ok cf, st')) ∧
    (userLoadClass w st name = (.ok cf, st') → userLoadClass w st' name = (.ok cf, st')) := by
  refine ⟨jmodLoad_idempotent w st st' name cf, fun h => ?_⟩
  unfold userLoadClass at h ⊢
  rcases hfind : st.userCache.find? (fun e => e.1 = name) with _ | e <;> rw [hfind] at h
  · rcases hjm : jmodLoadClass w st name with ⟨r, st1⟩
    rw [hjm] at h
    cases r with
    | ok cf2 =>
      dsimp only at h
      simp only [Prod.mk.injEq, Except.ok.injEq] at h
      obtain ⟨h1, h2⟩ := h
      subst h1; subst h2
      have hu : st1.userCache = st.userCache := by
        have hpres := jmodLoad_preserves_userCache w st name
        rw [hjm] at hpres
        exact hpres
      rw [hu, hfind, jmodLoad_idempotent w st st1 name cf2 hjm]
    | error msg =>
      dsimp only at h
      by_cases hdisk : w.diskParses name = true
      · rw [if_pos hdisk] at h
        simp only [Prod.mk.injEq, Except.ok.injEq] at h
        obtain ⟨h1, h2⟩ := h
        subst h1; subst h2
        simp [List.find?]
      · rw [if_neg hdisk] at h; simp at h
  · dsimp only at h
    simp only [Prod.mk.injEq, Except.ok.injEq] at h
    obtain ⟨h1, h2⟩ := h
    subst h1; subst h2
    rw [hfind]

/-- Loader world for the C8 witness: a readable archive holding exactly
`classes/Foo.class` (which parses), and a classpath where `Bar` parses. -/
def worldC8 : LoaderWorld :=
  ⟨true, fun t => t = "classes/Foo.class", fun _ => true, fun n => n = "Bar"⟩

/-- Fresh loader state. -/
def st0C8 : LoaderSt := ⟨false, [], [], 0⟩

/-- State after the jmod loader served `Foo` once. -/
def st1C8 : LoaderSt := ⟨true, [("Foo", 0)], [], 1⟩

/-- State after the user loader served `Bar` once from disk. -/
def stUC8 : LoaderSt := ⟨true, [], [("Bar", 0)], 1⟩

/-- Witness for C8: after a first successful load of `Foo` (jmod) and of
`Bar` (user/classpath), the immediate reload returns the same allocation
and leaves the state unchanged. -/
theorem c8_loader_cache_identity_witness :
    jmodLoadClass worldC8 st1C8 "Foo" = (.ok 0, st1C8) ∧
    userLoadClass worldC8 stUC8 "Bar" = (.ok 0, stUC8) :=
  ⟨(c8_loader_cache_identity worldC8 st0C8 st1C8 "Foo" 0).1 rfl,
   (c8_loader_cache_identity worldC8 st0C8 stUC8 "Bar" 0).2 rfl⟩

/-- Claim C5: a `getstatic` on a never-written static slot (that is not
`java/lang/System.out`) pushes the descriptor-typed zero value — `Int 0`
for `B`/`C`/`I`/`S`/`Z`, `Long 0` for `J`, `Float 0` for `F`, `Double 0`
for `D`, `Null` for `L...;` and `[` descriptors — and a `getfield` whose
non-null receiver lacks the named field pushes the same descriptor-typed
zero; neither reports a missing-field error. -/
theorem c5_unset_field_descriptor_zero (fuel : Nat) (vm vm1 : VMSt) (frame f1 f2 : Frame)
    (idx : Nat) (fr : FieldRefInfo) (evs : List RunEvent) (o : JObj)
    (c : Char) (r : List Char) :
    ((c = 'B' ∨ c = 'C' ∨ c = 'I' ∨ c = 'S' ∨ c = 'Z' →
        defaultValueForDescriptor ⟨c :: r⟩ = .vInt 0) ∧
      defaultValueForDescriptor ⟨'J' :: r⟩ = .vLong 0 ∧
      defaultValueForDescriptor ⟨'F' :: r⟩ = .vFloat 0 ∧
      defaultValueForDescriptor ⟨'D' :: r⟩ = .vDouble 0 ∧
      defaultValueForDescriptor ⟨'L' :: r⟩ = .vNull ∧
      defaultValueForDescriptor ⟨'[' :: r⟩ = .vNull) ∧
    (frame.readU16? = some (idx, f1) →
      ResolveFieldref f1.cls.pool idx = .ok fr →
      ensureInitialized fuel vm fr.className = (vm1, none, evs) →
      ¬(fr.className = "java/lang/System" ∧ fr.fieldName = "out") →
      getStaticFieldOk vm1 fr.className fr.fieldName = none →
      executeGetstatic fuel vm frame =
        (.ok zeroValue false, vm1, f1.push (defaultValueForDescriptor fr.descriptor))) ∧
    (frame.readU16? = some (idx, f1) →
      ResolveFieldref f1.cls.pool idx = .ok fr →
      f1.pop? = some (.vRef (.obj o), f2) →
      o.fields.find? (fun e => e.1 = fr.fieldName) = none →
      executeGetfield vm frame =
        (.ok zeroValue false, vm, f2.push (defaultValueForDescriptor fr.descriptor))) := by
  refine ⟨⟨fun h => ?_, rfl, rfl, rfl, rfl, rfl⟩, fun h1 h2 h3 h4 h5 => ?_, fun h1 h2 h6 h7 => ?_⟩
  · rcases h with h | h | h | h | h <;> subst h <;> rfl
  · unfold executeGetstatic
    rw [h1]
    dsimp only
    rw [h2]
    dsimp only
    rw [h3]
    dsimp only
    rw [if_neg (by simpa using h4), h5]
  · unfold executeGetfield
    rw [h1]
    dsimp only
    rw [h2]
    dsimp only
    rw [h6]
    dsimp only [Value.refField]
    rw [h7]
    rfl

/-- Pool for the C5 witness: entry 1 is a field ref `Foo.x:I`. -/
def poolC5 : Pool :=
  [none, some (.fieldref 2 3), some (.cls 4), some (.nameAndType 5 6),
    some (.utf8 "Foo"), some (.utf8 "x"), some (.utf8 "I")]

/-- Class of the C5 witness frames. -/
def clsC5 : ClassFile := ⟨poolC5, 0, 0, [], none⟩

/-- A `getstatic #1` frame, already past the opcode byte. -/
def frameC5s : Frame := ⟨[], [], [0xB2, 0x00, 0x01], 1, clsC5⟩

/-- A `getfield #1` frame with a fieldless receiver on the stack. -/
def frameC5f : Frame :=
  ⟨[], [.vRef (.obj (.mk "Point" []))], [0xB4, 0x00, 0x01], 1, clsC5⟩

/-- The VM state after `getstatic` triggered (and failed to load) `Foo`:
the ledger mark for `Foo` was taken and then removed. -/
def vmC5 : VMSt := (ensureInitialized 1 vmNoLoad "Foo").1

/-- Witness for C5: reading the never-set `Foo.x:I` via `getstatic` pushes
`Int 0`, and `getfield x:I` on a receiver without the field pushes `Int 0`;
neither errors. -/
theorem c5_unset_field_descriptor_zero_witness :
    executeGetstatic 1 vmNoLoad frameC5s =
      (.ok zeroValue false, vmC5, { frameC5s with pc := 3, stack := [.vInt 0] }) ∧
    executeGetfield vmNoLoad frameC5f =
      (.ok zeroValue false, vmNoLoad, { frameC5f with pc := 3, stack := [.vInt 0] }) :=
  ⟨(c5_unset_field_descriptor_zero 1 vmNoLoad vmC5 frameC5s
      { frameC5s with pc := 3 } frameC5f 1 ⟨"Foo", "x", "I"⟩ [] (.mk "Point" []) 'I' []).2.1
      rfl rfl rfl (by decide) rfl,
   (c5_unset_field_descriptor_zero 1 vmNoLoad vmNoLoad frameC5f
      { frameC5f with pc := 3 } { frameC5f with pc := 3, stack := [] } 1
      ⟨"Foo", "x", "I"⟩ [] (.mk "Point" []) 'I' []).2.2 rfl rfl rfl rfl⟩

/-- The claim's wording of an exception-table match: the `[start_pc,
end_pc)` range contains the faulting pc, and `catch_type` is 0 or names a
class the exception's class is assignable to (an entry whose class name
fails to resolve names no class). -/
def handlerMatchesSpec (ifuel : Nat) (vm : VMSt) (cf : ClassFile) (pc : Int)
    (exc : JObj) (h : ExceptionHandler) : Bool :=
  (decide ((h.startPC : Int) ≤ pc) && decide (pc < (h.endPC : Int))) &&
    (h.catchType == 0 ||
      (match GetClassName cf.pool h.catchType with
       | .error _ => false
       | .ok catchClassName => isInstanceOf vm ifuel exc.className catchClassName))

/-- Helper: a successful `find?` returns the first element satisfying the
predicate — everything before it in the list fails it. -/
theorem find?_first_split {α : Type} (p : α → Bool) :
    ∀ (l : List α) (a : α), l.find? p = some a →
      p a = true ∧ ∃ l1 l2, l = l1 ++ a :: l2 ∧ ∀ b ∈ l1, p b = false := by
  intro l
  induction l with
  | nil => intro a h; simp [List.find?] at h
  | cons x t ih =>
    intro a h
    by_cases hx : p x = true
    · rw [List.find?_cons_of_pos _ hx] at h
      cases h
      exact ⟨hx, [], t, rfl, by simp⟩
    · have hx' : p x = false := by simpa using hx
      rw [List.find?_cons_of_neg _ hx] at h
      obtain ⟨hp, l1, l2, heq, hall⟩ := ih a h
      refine ⟨hp, x :: l1, l2, by rw [heq]; rfl, ?_⟩
      intro b hb
      rcases List.mem_cons.mp hb with hb | hb
      · subst hb; exact hx'
      · exact hall b hb

/-- Helper: the source's `findExceptionHandler` control flow equals a
declared-order `find?` of the claim's match predicate. -/
theorem findExceptionHandler_eq_find? (ifuel : Nat) (vm : VMSt) (pc : Int)
    (exc : JObj) (cf : ClassFile) :
    ∀ handlers : List ExceptionHandler,
      findExceptionHandler ifuel vm handlers pc exc cf =
        handlers.find? (handlerMatchesSpec ifuel vm cf pc exc) := by
  intro handlers
  induction handlers with
  | nil => rfl
  | cons h t ih =>
    simp only [findExceptionHandler, List.find?]
    by_cases hr : pc < (h.startPC : Int) ∨ pc ≥ (h.endPC : Int)
    · rw [if_pos hr, ih]
      have hm : handlerMatchesSpec ifuel vm cf pc exc h = false := by
        unfold handlerMatchesSpec
        rcases hr with hr | hr
        · have hd1 : decide ((h.startPC : Int) ≤ pc) = false := by simp; omega
          simp [hd1]
        · have hd2 : decide (pc < (h.endPC : Int)) = false := by simp; omega
          simp [hd2]
      rw [hm]
    · rw [if_neg hr]
      push_neg at hr
      have hm1 : (decide ((h.startPC : Int) ≤ pc) && decide (pc < (h.endPC : Int))) = true := by
        simp; omega
      by_cases hct : h.catchType = 0
      · rw [if_pos hct]
        have hm : handlerMatchesSpec ifuel vm cf pc exc h = true := by
          unfold handlerMatchesSpec
          simp [hm1, hct]
        rw [hm]
      · rw [if_neg hct]
        cases hg : GetClassName cf.pool h.catchType with
        | error msg =>
          rw [ih]
          have hm : handlerMatchesSpec ifuel vm cf pc exc h = false := by
            unfold handlerMatchesSpec
            simp [hg, hct]
          rw [hm]
        | ok catchClassName =>
          by_cases hin : isInstanceOf vm ifuel exc.className catchClassName = true
          · dsimp only
            rw [if_pos hin]
            have hm : handlerMatchesSpec ifuel vm cf pc exc h = true := by
              unfold handlerMatchesSpec
              simp [hm1, hg, hin]
            rw [hm]
          · dsimp only
            rw [if_neg hin]
            rw [ih]
            have hm : handlerMatchesSpec ifuel vm cf pc exc h = false := by
              unfold handlerMatchesSpec
              simp [hg, hct, hm1]
              simpa using hin
            rw [hm]

/-- Claim C3: when an opcode at pc `p` raises a Java exception, the
interpreter scans the method's exception table in declared order and
selects the first entry whose `[start_pc, end_pc)` range contains `p` and
whose `catch_type` is 0 or names a class the exception's class is
assignable to; on a match the operand stack is cleared, the exception
object reference is pushed (so the stack is exactly `[exc]`), `pc` becomes
`handler_pc` and execution continues; with no matching entry the Java
exception propagates unchanged to the caller. -/
theorem c3_handler_search_and_dispatch (ifuel fuel : Nat) (vm vm2 : VMSt)
    (frame f2 : Frame) (opcode : Nat) (e : GoError) (excObj : JObj)
    (hd : ExceptionHandler) (ca : CodeAttr) (m : MInfo) (cf : ClassFile)
    (dispatch : Dispatch) (pc : Int) :
    (∀ handlers : List ExceptionHandler,
      findExceptionHandler ifuel vm handlers pc excObj cf =
        handlers.find? (handlerMatchesSpec ifuel vm cf pc excObj)) ∧
    (findExceptionHandler ifuel vm ca.handlers pc excObj cf = some hd →
      handlerMatchesSpec ifuel vm cf pc excObj hd = true ∧
      ∃ l1 l2, ca.handlers = l1 ++ hd :: l2 ∧
        ∀ h' ∈ l1, handlerMatchesSpec ifuel vm cf pc excObj h' = false) ∧
    (frame.pc < (frame.code.length : Int) →
      frame.byteAt frame.pc = some opcode →
      dispatch vm { frame with pc := frame.pc + 1 } opcode = (.err e, vm2, f2) →
      (isJavaExc e = some excObj →
        findExceptionHandler ifuel vm2 ca.handlers frame.pc excObj cf = some hd →
        executeMethodLoop dispatch ifuel ca m cf (fuel + 1) vm frame =
          executeMethodLoop dispatch ifuel ca m cf fuel vm2
            { f2 with stack := [.vRef (.obj excObj)], pc := (hd.handlerPC : Int) }) ∧
      (isJavaExc e = some excObj →
        findExceptionHandler ifuel vm2 ca.handlers frame.pc excObj cf = none →
        executeMethodLoop dispatch ifuel ca m cf (fuel + 1) vm frame = .err e) ∧
      (isJavaExc e = none →
        executeMethodLoop dispatch ifuel ca m cf (fuel + 1) vm frame =
          .err (.wrapped ("in " ++ cf.classNameStr ++ "." ++ m.name ++ ":" ++
            m.descriptor ++ " at PC=" ++ toString frame.pc) e))) := by
  refine ⟨findExceptionHandler_eq_find? ifuel vm pc excObj cf, fun hfind => ?_,
    fun hlen hop hdisp => ⟨fun hje hfound => ?_, fun hje hnone => ?_, fun hje => ?_⟩⟩
  · rw [findExceptionHandler_eq_find?] at hfind
    exact find?_first_split _ ca.handlers hd hfind
  · simp only [executeMethodLoop]
    rw [if_pos hlen, hop]
    dsimp only
    rw [hdisp]
    dsimp only
    rw [hje]
    dsimp only
    rw [hfound]
  · simp only [executeMethodLoop]
    rw [if_pos hlen, hop]
    dsimp only
    rw [hdisp]
    dsimp only
    rw [hje]
    dsimp only
    rw [hnone]
  · simp only [executeMethodLoop]
    rw [if_pos hlen, hop]
    dsimp only
    rw [hdisp]
    dsimp only
    rw [hje]

/-- Frame of the C3 witness: about to execute the `idiv` at pc 2 of the C2
fixture method, with divisor 0 on top of the stack. -/
def frameC3w : Frame := ⟨[], [.vInt 0, .vInt 5], codeC2, 2, clsC2⟩

/-- The ArithmeticException carrier object. -/
def excC3 : JObj := .mk "java/lang/ArithmeticException" []

/-- Witness for C3: at the faulting `idiv` the first (and only) table entry
matches, and the loop continues at its `handler_pc` 4 with the operand
stack holding exactly the exception reference. -/
theorem c3_handler_search_and_dispatch_witness :
    (handlerMatchesSpec 1 vmNoLoad clsC2 2 excC3 ⟨0, 3, 4, 1⟩ = true ∧
      ∃ l1 l2, codeAttrC2.handlers = l1 ++ (⟨0, 3, 4, 1⟩ : ExceptionHandler) :: l2 ∧
        ∀ h' ∈ l1, handlerMatchesSpec 1 vmNoLoad clsC2 2 excC3 h' = false) ∧
    executeMethodLoop (executeInstr 1) 1 codeAttrC2 ⟨"f", "()I"⟩ clsC2 8 vmNoLoad frameC3w =
      executeMethodLoop (executeInstr 1) 1 codeAttrC2 ⟨"f", "()I"⟩ clsC2 7 vmNoLoad
        ⟨[], [.vRef (.obj excC3)], codeC2, 4, clsC2⟩ :=
  ⟨(c3_handler_search_and_dispatch 1 7 vmNoLoad vmNoLoad frameC3w
      ⟨[], [], codeC2, 3, clsC2⟩ 0x6C (NewJavaException "java/lang/ArithmeticException")
      excC3 ⟨0, 3, 4, 1⟩ codeAttrC2 ⟨"f", "()I"⟩ clsC2 (executeInstr 1) 2).2.1 rfl,
   ((c3_handler_search_and_dispatch 1 7 vmNoLoad vmNoLoad frameC3w
      ⟨[], [], codeC2, 3, clsC2⟩ 0x6C (NewJavaException "java/lang/ArithmeticException")
      excC3 ⟨0, 3, 4, 1⟩ codeAttrC2 ⟨"f", "()I"⟩ clsC2 (executeInstr 1) 2).2.2
      (by decide) rfl rfl).1 rfl rfl⟩

/-- Number of `<clinit>` runs of class `c` in an event list. -/
def cnt (evs : List RunEvent) (c : String) : Nat :=
  evs.countP (fun e => decide (e.1 = c))

/-- Helper: `cnt` distributes over append. -/
theorem cnt_append (a b : List RunEvent) (c : String) :
    cnt (a ++ b) c = cnt a c + cnt b c := by
  simp [cnt, List.countP_append]

/-- Helper: an event for a different class does not count. -/
theorem cnt_cons_ne {a c : String} (x : String) (l : List RunEvent) (h : a ≠ c) :
    cnt ((a, x) :: l) c = cnt l c := by
  simp [cnt, List.countP_cons, h]

/-- Helper: an event for the class itself counts once. -/
theorem cnt_cons_eq (c x : String) (l : List RunEvent) :
    cnt ((c, x) :: l) c = cnt l c + 1 := by
  simp [cnt, List.countP_cons]

/-- Helper: once a class is marked in the initialization ledger, any
initialization activity leaves the mark in place and never starts that
class's `<clinit>` again. -/
theorem initRun_mono (fuel : Nat) :
    ∀ (q : InitQ) (vm : VMSt) (c : String), vm.initialized c = true →
      (initRun fuel vm q).1.initialized c = true ∧ cnt (initRun fuel vm q).2.2 c = 0 := by
  induction fuel with
  | zero => intro q vm c hc; exact ⟨hc, rfl⟩
  | succ n ih =>
    intro q vm c hc
    cases q with
    | cls cn =>
      by_cases hcn : vm.initialized cn = true
      · unfold initRun
        rw [if_pos hcn]
        exact ⟨hc, rfl⟩
      · have hne : c ≠ cn := fun h => hcn (h ▸ hc)
        unfold initRun
        rw [if_neg hcn]
        dsimp only
        have hc1 : (if c = cn then true else vm.initialized c) = true := by
          rw [if_neg hne]; exact hc
        cases hl : vm.loadClass cn with
        | none =>
          dsimp only
          refine ⟨?_, rfl⟩
          show (if c = cn then false else if c = cn then true else vm.initialized c) = true
          rw [if_neg hne, if_neg hne]
          exact hc
        | some cf =>
          dsimp only
          rcases hr1 : (if cf.superClassName ≠ "" then
              initRun n { vm with initialized := fun x => if x = cn then true else vm.initialized x }
                (.cls cf.superClassName)
            else ({ vm with initialized := fun x => if x = cn then true else vm.initialized x },
              none, [])) with ⟨vm2, e2, evs2⟩
          have h2 : vm2.initialized c = true ∧ cnt evs2 c = 0 := by
            by_cases hs : cf.superClassName ≠ ""
            · rw [if_pos hs] at hr1
              have := ih (.cls cf.superClassName)
                { vm with initialized := fun x => if x = cn then true else vm.initialized x } c hc1
              rw [hr1] at this
              exact this
            · rw [if_neg hs] at hr1
              cases hr1
              exact ⟨hc1, rfl⟩
          obtain ⟨hc2, hcnt2⟩ := h2
          cases e2 with
          | some e => exact ⟨hc2, hcnt2⟩
          | none =>
            dsimp only
            cases hcl : cf.clinitOps with
            | none => exact ⟨hc2, hcnt2⟩
            | some l =>
              dsimp only
              rcases hr2 : initRun n vm2 (.ops l) with ⟨vm3, e3, evs3⟩
              have h3 := ih (.ops l) vm2 c hc2
              rw [hr2] at h3
              obtain ⟨hc3, hcnt3⟩ := h3
              have hmid : cnt (evs2 ++ (cn, "<clinit>") :: evs3) c = 0 := by
                rw [cnt_append, cnt_cons_ne _ _ (Ne.symm hne), hcnt2, hcnt3]
              cases e3 with
              | none => exact ⟨hc3, hmid⟩
              | some e =>
                dsimp only
                by_cases hje : (isJavaExc e).isSome
                · rw [if_pos hje]; exact ⟨hc3, hmid⟩
                · rw [if_neg hje]; exact ⟨hc3, hmid⟩
    | ops l =>
      cases l with
      | nil => exact ⟨hc, rfl⟩
      | cons op rest =>
        cases op with
        | throwJava cx => exact ⟨hc, rfl⟩
        | hostFail m => exact ⟨hc, rfl⟩
        | trigger cx =>
          unfold initRun
          dsimp only
          rcases hr1 : initRun n vm (.cls cx) with ⟨vm2, e2, evs2⟩
          have h2 := ih (.cls cx) vm c hc
          rw [hr1] at h2
          obtain ⟨hc2, hcnt2⟩ := h2
          cases e2 with
          | some e => exact ⟨hc2, hcnt2⟩
          | none =>
            dsimp only
            rcases hr2 : initRun n vm2 (.ops rest) with ⟨vm3, e3, evs3⟩
            have h3 := ih (.ops rest) vm2 c hc2
            rw [hr2] at h3
            obtain ⟨hc3, hcnt3⟩ := h3
            refine ⟨hc3, ?_⟩
            rw [cnt_append, hcnt2, hcnt3]

/-- Helper: any single initialization activity starts a given class's
`<clinit>` at most once, and having started it leaves that class marked in
the ledger. -/
theorem initRun_once (fuel : Nat) :
    ∀ (q : InitQ) (vm : VMSt) (c : String),
      cnt (initRun fuel vm q).2.2 c ≤ 1 ∧
      (1 ≤ cnt (initRun fuel vm q).2.2 c → (initRun fuel vm q).1.initialized c = true) := by
  induction fuel with
  | zero =>
    intro q vm c
    exact ⟨Nat.zero_le 1, fun h => absurd h (Nat.not_succ_le_zero 0)⟩
  | succ n ih =>
    intro q vm c
    by_cases hc : vm.initialized c = true
    · have hm := initRun_mono (n + 1) q vm c hc
      exact ⟨by rw [hm.2]; omega, fun _ => hm.1⟩
    · cases q with
      | cls cn =>
        by_cases hcn : vm.initialized cn = true
        · unfold initRun
          rw [if_pos hcn]
          exact ⟨Nat.zero_le 1, fun h => absurd h (Nat.not_succ_le_zero 0)⟩
        · unfold initRun
          rw [if_neg hcn]
          dsimp only
          cases hl : vm.loadClass cn with
          | none =>
            dsimp only
            exact ⟨Nat.zero_le 1, fun h => absurd h (Nat.not_succ_le_zero 0)⟩
          | some cf =>
            dsimp only
            rcases hr1 : (if cf.superClassName ≠ "" then
                initRun n { vm with initialized := fun x => if x = cn then true else vm.initialized x }
                  (.cls cf.superClassName)
              else ({ vm with initialized := fun x => if x = cn then true else vm.initialized x },
                none, [])) with ⟨vm2, e2, evs2⟩
            by_cases heq : c = cn
            · -- the marked class itself: the mark makes every nested start a no-op
              subst heq
              have hc1 : (({ vm with initialized := fun x => if x = c then true
                  else vm.initialized x } : VMSt)).initialized c = true := by
                simp
              have h2 : vm2.initialized c = true ∧ cnt evs2 c = 0 := by
                by_cases hs : cf.superClassName ≠ ""
                · rw [if_pos hs] at hr1
                  have := initRun_mono n (.cls cf.superClassName)
                    { vm with initialized := fun x => if x = c then true else vm.initialized x }
                    c hc1
                  rw [hr1] at this
                  exact this
                · rw [if_neg hs] at hr1
                  cases hr1
                  exact ⟨hc1, rfl⟩
              obtain ⟨hc2, hcnt2⟩ := h2
              cases e2 with
              | some e => exact ⟨by rw [hcnt2]; omega, fun _ => hc2⟩
              | none =>
                dsimp only
                cases hcl : cf.clinitOps with
                | none => exact ⟨by rw [hcnt2]; omega, fun _ => hc2⟩
                | some l =>
                  dsimp only
                  rcases hr2 : initRun n vm2 (.ops l) with ⟨vm3, e3, evs3⟩
                  have h3 := initRun_mono n (.ops l) vm2 c hc2
                  rw [hr2] at h3
                  obtain ⟨hc3, hcnt3⟩ := h3
                  have hmid : cnt (evs2 ++ (c, "<clinit>") :: evs3) c = 1 := by
                    rw [cnt_append, cnt_cons_eq, hcnt2, hcnt3]
                  cases e3 with
                  | none => exact ⟨by rw [hmid], fun _ => hc3⟩
                  | some e =>
                    dsimp only
                    by_cases hje : (isJavaExc e).isSome
                    · rw [if_pos hje]; exact ⟨by rw [hmid], fun _ => hc3⟩
                    · rw [if_neg hje]; exact ⟨by rw [hmid], fun _ => hc3⟩
            · -- a different class: counts compose
              have hc1 : (({ vm with initialized := fun x => if x = cn then true
                  else vm.initialized x } : VMSt)).initialized c = vm.initialized c := by
                simp [heq]
              have h2 : cnt evs2 c ≤ 1 ∧ (1 ≤ cnt evs2 c → vm2.initialized c = true) := by
                by_cases hs : cf.superClassName ≠ ""
                · rw [if_pos hs] at hr1
                  have := ih (.cls cf.superClassName)
                    { vm with initialized := fun x => if x = cn then true else vm.initialized x } c
                  rw [hr1] at this
                  dsimp only at this
                  exact this
                · rw [if_neg hs] at hr1
                  cases hr1
                  exact ⟨Nat.zero_le 1, fun h => absurd h (Nat.not_succ_le_zero 0)⟩
              obtain ⟨hb2, hi2⟩ := h2
              cases e2 with
              | some e => exact ⟨hb2, hi2⟩
              | none =>
                dsimp only
                cases hcl : cf.clinitOps with
                | none => exact ⟨hb2, hi2⟩
                | some l =>
                  dsimp only
                  rcases hr2 : initRun n vm2 (.ops l) with ⟨vm3, e3, evs3⟩
                  have h3 := ih (.ops l) vm2 c
                  rw [hr2] at h3
                  dsimp only at h3
                  obtain ⟨hb3, hi3⟩ := h3
                  have hkey : cnt (evs2 ++ (cn, "<clinit>") :: evs3) c ≤ 1 ∧
                      (1 ≤ cnt (evs2 ++ (cn, "<clinit>") :: evs3) c →
                        vm3.initialized c = true) := by
                    by_cases h21 : 1 ≤ cnt evs2 c
                    · have hv2 : vm2.initialized c = true := hi2 h21
                      have := initRun_mono n (.ops l) vm2 c hv2
                      rw [hr2] at this
                      dsimp only at this
                      obtain ⟨hv3, hz3⟩ := this
                      refine ⟨?_, fun _ => hv3⟩
                      rw [cnt_append, cnt_cons_ne _ _ (Ne.symm heq), hz3]
                      omega
                    · have hz2 : cnt evs2 c = 0 := by omega
                      refine ⟨?_, fun hone => ?_⟩
                      · rw [cnt_append, cnt_cons_ne _ _ (Ne.symm heq), hz2]
                        omega
                      · refine hi3 ?_
                        rw [cnt_append, cnt_cons_ne _ _ (Ne.symm heq), hz2] at hone
                        omega
                  cases e3 with
                  | none => exact hkey
                  | some e =>
                    dsimp only
                    by_cases hje : (isJavaExc e).isSome
                    · rw [if_pos hje]; exact hkey
                    · rw [if_neg hje]; exact hkey
      | ops l =>
        cases l with
        | nil => exact ⟨Nat.zero_le 1, fun h => absurd h (Nat.not_succ_le_zero 0)⟩
        | cons op rest =>
          cases op with
          | throwJava cx => exact ⟨Nat.zero_le 1, fun h => absurd h (Nat.not_succ_le_zero 0)⟩
          | hostFail m => exact ⟨Nat.zero_le 1, fun h => absurd h (Nat.not_succ_le_zero 0)⟩
          | trigger cx =>
            unfold initRun
            dsimp only
            rcases hr1 : initRun n vm (.cls cx) with ⟨vm2, e2, evs2⟩
            have h2 := ih (.cls cx) vm c
            rw [hr1] at h2
            dsimp only at h2
            obtain ⟨hb2, hi2⟩ := h2
            cases e2 with
            | some e => exact ⟨hb2, hi2⟩
            | none =>
              dsimp only
              rcases hr2 : initRun n vm2 (.ops rest) with ⟨vm3, e3, evs3⟩
              dsimp only
              have h3 := ih (.ops rest) vm2 c
              rw [hr2] at h3
              dsimp only at h3
              obtain ⟨hb3, hi3⟩ := h3
              by_cases h21 : 1 ≤ cnt evs2 c
              · have hv2 : vm2.initialized c = true := hi2 h21
                have := initRun_mono n (.ops rest) vm2 c hv2
                rw [hr2] at this
                dsimp only at this
                obtain ⟨hv3, hz3⟩ := this
                refine ⟨?_, fun _ => hv3⟩
                rw [cnt_append, hz3]
                omega
              · have hz2 : cnt evs2 c = 0 := by omega
                refine ⟨?_, fun hone => ?_⟩
                · rw [cnt_append, hz2]
                  omega
                · refine hi3 ?_
                  rw [cnt_append, hz2] at hone
                  omega

/-- A process run, as far as class initialization is concerned: the
sequence of triggering opcodes executed outside any `<clinit>`, each
calling `ensureInitialized`; collects all initializer-run events. -/
def runProcess (fuel : Nat) : VMSt → List String → VMSt × List RunEvent
  | vm, [] => (vm, [])
  | vm, cn :: rest =>
    let r := ensureInitialized fuel vm cn
    let r2 := runProcess fuel r.1 rest
    (r2.1, r.2.2 ++ r2.2)

/-- Helper: across a whole process run, a class already marked is never
started, and any class is started at most once. -/
theorem runProcess_once (fuel : Nat) :
    ∀ (l : List String) (vm : VMSt) (c : String),
      (vm.initialized c = true → cnt (runProcess fuel vm l).2 c = 0) ∧
      cnt (runProcess fuel vm l).2 c ≤ 1 := by
  intro l
  induction l with
  | nil => intro vm c; exact ⟨fun _ => rfl, Nat.zero_le 1⟩
  | cons cn rest ih =>
    intro vm c
    show (vm.initialized c = true →
        cnt ((ensureInitialized fuel vm cn).2.2 ++
          (runProcess fuel (ensureInitialized fuel vm cn).1 rest).2) c = 0) ∧
      cnt ((ensureInitialized fuel vm cn).2.2 ++
        (runProcess fuel (ensureInitialized fuel vm cn).1 rest).2) c ≤ 1
    rcases hr : initRun fuel vm (.cls cn) with ⟨vm2, e2, evs2⟩
    have hr' : ensureInitialized fuel vm cn = (vm2, e2, evs2) := hr
    rw [hr']
    dsimp only
    have honce := initRun_once fuel (.cls cn) vm c
    rw [hr] at honce
    dsimp only at honce
    obtain ⟨hb2, hi2⟩ := honce
    obtain ⟨ihz, ihb⟩ := ih vm2 c
    refine ⟨fun hc => ?_, ?_⟩
    · have hm := initRun_mono fuel (.cls cn) vm c hc
      rw [hr] at hm
      dsimp only at hm
      rw [cnt_append, hm.2, ihz hm.1]
    · by_cases h21 : 1 ≤ cnt evs2 c
      · have hv2 := hi2 h21
        rw [cnt_append, ihz hv2]
        omega
      · rw [cnt_append]
        have : cnt evs2 c = 0 := by omega
        rw [this]
        omega

/-- Helper: initializing an unmarked but loadable class leaves it marked,
whatever the outcome of its superclass initialization and initializer
body. -/
theorem initRun_marks (n : Nat) (vm : VMSt) (cn : String) (cf : ClassFile)
    (hcn : vm.initialized cn = false) (hl : vm.loadClass cn = some cf) :
    (initRun (n + 1) vm (.cls cn)).1.initialized cn = true := by
  unfold initRun
  rw [if_neg (by simp [hcn])]
  dsimp only
  rw [hl]
  dsimp only
  have hc1 : (({ vm with initialized := fun x => if x = cn then true
      else vm.initialized x } : VMSt)).initialized cn = true := by simp
  rcases hr1 : (if cf.superClassName ≠ "" then
      initRun n { vm with initialized := fun x => if x = cn then true else vm.initialized x }
        (.cls cf.superClassName)
    else ({ vm with initialized := fun x => if x = cn then true else vm.initialized x },
      none, [])) with ⟨vm2, e2, evs2⟩
  have hc2 : vm2.initialized cn = true := by
    by_cases hs : cf.superClassName ≠ ""
    · rw [if_pos hs] at hr1
      have := initRun_mono n (.cls cf.superClassName)
        { vm with initialized := fun x => if x = cn then true else vm.initialized x } cn hc1
      rw [hr1] at this
      exact this.1
    · rw [if_neg hs] at hr1
      cases hr1
      exact hc1
  cases e2 with
  | some e => exact hc2
  | none =>
    dsimp only
    cases hcl : cf.clinitOps with
    | none => exact hc2
    | some l =>
      dsimp only
      rcases hr2 : initRun n vm2 (.ops l) with ⟨vm3, e3, evs3⟩
      have := initRun_mono n (.ops l) vm2 cn hc2
      rw [hr2] at this
      have hc3 : vm3.initialized cn = true := this.1
      cases e3 with
      | none => exact hc3
      | some e =>
        dsimp only
        by_cases hje : (isJavaExc e).isSome
        · rw [if_pos hje]; exact hc3
        · rw [if_neg hje]; exact hc3

/-- Claim C4: for every class name, `<clinit>` runs at most once per
process, even under recursive triggering — the name is added to the
initialization ledger before `<clinit>` runs, so re-entry is a no-op; an
error out of the initialization (in particular a Java exception thrown by
`<clinit>`) leaves the mark in place; and the mark is removed only when
the class itself cannot be loaded. -/
theorem c4_clinit_at_most_once (fuel n : Nat) (loadFn : String → Option ClassFile)
    (sf : List (String × String × Value)) (vm : VMSt) (cn : String)
    (triggers : List String) (c : String) :
    cnt (runProcess fuel ⟨loadFn, sf, fun _ => false⟩ triggers).2 c ≤ 1 ∧
    (vm.initialized cn = true → ensureInitialized (n + 1) vm cn = (vm, none, [])) ∧
    (∀ e, (ensureInitialized (n + 1) vm cn).2.1 = some e →
      (ensureInitialized (n + 1) vm cn).1.initialized cn = true) ∧
    (vm.initialized cn = false →
      ((ensureInitialized (n + 1) vm cn).1.initialized cn = false ↔
        vm.loadClass cn = none)) := by
  refine ⟨(runProcess_once fuel triggers _ c).2, fun hm => ?_, fun e he => ?_, fun hcn => ?_⟩
  · unfold ensureInitialized initRun
    rw [if_pos hm]
  · by_cases hm : vm.initialized cn = true
    · unfold ensureInitialized initRun at he
      rw [if_pos hm] at he
      simp at he
    · have hm' : vm.initialized cn = false := by simpa using hm
      cases hl : vm.loadClass cn with
      | none =>
        unfold ensureInitialized initRun at he
        rw [if_neg (by simp [hm'])] at he
        dsimp only at he
        rw [hl] at he
        simp at he
      | some cf => exact initRun_marks n vm cn cf hm' hl
  · constructor
    · intro hfalse
      cases hl : vm.loadClass cn with
      | none => rfl
      | some cf =>
        have := initRun_marks n vm cn cf hcn hl
        unfold ensureInitialized at hfalse
        rw [this] at hfalse
        cases hfalse
    · intro hl
      unfold ensureInitialized initRun
      rw [if_neg (by simp [hcn])]
      dsimp only
      rw [hl]
      simp

/-- Class `A` for the C4 witness: its `<clinit>` triggers `B` and then
recursively `A` itself. -/
def clsA : ClassFile := ⟨[], 0, 0, [], some [.trigger "B", .trigger "A"]⟩

/-- Class `B`: its `<clinit>` triggers `A` back. -/
def clsB : ClassFile := ⟨[], 0, 0, [], some [.trigger "A"]⟩

/-- Class `T`: its `<clinit>` throws a Java exception. -/
def clsT : ClassFile := ⟨[], 0, 0, [], some [.throwJava "java/lang/RuntimeException"]⟩

/-- Loader serving `A`, `B` and `T`. -/
def loadABT : String → Option ClassFile := fun n =>
  if n = "A" then some clsA else if n = "B" then some clsB
  else if n = "T" then some clsT else none

/-- Fresh VM over that loader. -/
def vmABT : VMSt := ⟨loadABT, [], fun _ => false⟩

/-- The same VM with `A` already marked. -/
def vmMarkedA : VMSt := ⟨loadABT, [], fun x => x == "A"⟩

/-- Witness for C4 at a mutually-recursive world: triggering `A` twice runs
each `<clinit>` at most once, a marked class is a no-op, the thrown Java
exception of `T` leaves `T` marked, and the unloadable `Foo` ends
unmarked. -/
theorem c4_clinit_at_most_once_witness :
    cnt (runProcess 10 vmABT ["A", "A"]).2 "A" ≤ 1 ∧
    ensureInitialized 3 vmMarkedA "A" = (vmMarkedA, none, []) ∧
    (ensureInitialized 3 vmABT "T").1.initialized "T" = true ∧
    ((ensureInitialized 3 vmABT "Foo").1.initialized "Foo" = false ↔
      vmABT.loadClass "Foo" = none) :=
  ⟨(c4_clinit_at_most_once 10 2 loadABT [] vmABT "A" ["A", "A"] "A").1,
   (c4_clinit_at_most_once 10 2 loadABT [] vmMarkedA "A" ["A", "A"] "A").2.1 rfl,
   (c4_clinit_at_most_once 10 2 loadABT [] vmABT "T" ["A", "A"] "A").2.2.1
     (NewJavaException "java/lang/RuntimeException") rfl,
   (c4_clinit_at_most_once 10 2 loadABT [] vmABT "Foo" ["A", "A"] "A").2.2.2 rfl⟩

/-- Helper: every event an initialization emits is a `<clinit>` run — no
other method (in particular no `<init>`) is ever started by it. -/
theorem initRun_events_clinit (fuel : Nat) :
    ∀ (q : InitQ) (vm : VMSt) (ev : RunEvent),
      ev ∈ (initRun fuel vm q).2.2 → ev.2 = "<clinit>" := by
  induction fuel with
  | zero => intro q vm ev h; exact absurd h (List.not_mem_nil ev)
  | succ n ih =>
    intro q vm ev h
    cases q with
    | cls cn =>
      by_cases hcn : vm.initialized cn = true
      · unfold initRun at h
        rw [if_pos hcn] at h
        exact absurd h (List.not_mem_nil ev)
      · unfold initRun at h
        rw [if_neg hcn] at h
        dsimp only at h
        cases hl : vm.loadClass cn with
        | none =>
          rw [hl] at h
          exact absurd h (List.not_mem_nil ev)
        | some cf =>
          rw [hl] at h
          dsimp only at h
          rcases hr1 : (if cf.superClassName ≠ "" then
              initRun n { vm with initialized := fun x => if x = cn then true else vm.initialized x }
                (.cls cf.superClassName)
            else ({ vm with initialized := fun x => if x = cn then true else vm.initialized x },
              none, [])) with ⟨vm2, e2, evs2⟩
          rw [hr1] at h
          have hevs2 : ∀ e' ∈ evs2, (e' : RunEvent).2 = "<clinit>" := by
            intro e' he'
            by_cases hs : cf.superClassName ≠ ""
            · rw [if_pos hs] at hr1
              exact ih (.cls cf.superClassName) _ e' (by rw [hr1]; exact he')
            · rw [if_neg hs] at hr1
              cases hr1
              exact absurd he' (List.not_mem_nil e')
          cases e2 with
          | some e => exact hevs2 ev h
          | none =>
            dsimp only at h
            cases hcl : cf.clinitOps with
            | none => rw [hcl] at h; exact hevs2 ev h
            | some l =>
              rw [hcl] at h
              dsimp only at h
              rcases hr2 : initRun n vm2 (.ops l) with ⟨vm3, e3, evs3⟩
              rw [hr2] at h
              have hevs3 : ∀ e' ∈ evs3, (e' : RunEvent).2 = "<clinit>" := by
                intro e' he'
                exact ih (.ops l) vm2 e' (by rw [hr2]; exact he')
              have hmem : ev ∈ evs2 ++ (cn, "<clinit>") :: evs3 → ev.2 = "<clinit>" := by
                intro hm
                rcases List.mem_append.mp hm with hm | hm
                · exact hevs2 ev hm
                · rcases List.mem_cons.mp hm with hm | hm
                  · rw [hm]
                  · exact hevs3 ev hm
              cases e3 with
              | none => exact hmem h
              | some e =>
                dsimp only at h
                by_cases hje : (isJavaExc e).isSome
                · rw [if_pos hje] at h; exact hmem h
                · rw [if_neg hje] at h; exact hmem h
    | ops l =>
      cases l with
      | nil => exact absurd h (List.not_mem_nil ev)
      | cons op rest =>
        cases op with
        | throwJava cx => exact absurd h (List.not_mem_nil ev)
        | hostFail m => exact absurd h (List.not_mem_nil ev)
        | trigger cx =>
          unfold initRun at h
          dsimp only at h
          rcases hr1 : initRun n vm (.cls cx) with ⟨vm2, e2, evs2⟩
          rw [hr1] at h
          have hevs2 : ∀ e' ∈ evs2, (e' : RunEvent).2 = "<clinit>" := by
            intro e' he'
            exact ih (.cls cx) vm e' (by rw [hr1]; exact he')
          cases e2 with
          | some e => exact hevs2 ev h
          | none =>
            dsimp only at h
            rcases hr2 : initRun n vm2 (.ops rest) with ⟨vm3, e3, evs3⟩
            rw [hr2] at h
            dsimp only at h
            rcases List.mem_append.mp h with hm | hm
            · exact hevs2 ev hm
            · exact ih (.ops rest) vm2 ev (by rw [hr2]; exact hm)

/-- Pool naming `java/lang/StringBuilder` for the C9 counterexample. -/
def poolC9 : Pool := [none, some (.cls 2), some (.utf8 "java/lang/StringBuilder")]

/-- Class of the counterexample frame. -/
def clsC9 : ClassFile := ⟨poolC9, 0, 0, [], none⟩

/-- A `new #1` frame, already past the opcode byte. -/
def frameC9 : Frame := ⟨[], [], [0xBB, 0x00, 0x01], 1, clsC9⟩

/-- The VM state after the `new` triggered (and failed to load)
`java/lang/StringBuilder`. -/
def vmSB9 : VMSt := (ensureInitialized 1 vmNoLoad "java/lang/StringBuilder").1

/-- The object the interpreter allocates for `new java/lang/StringBuilder`:
its field map already holds the native `_buffer` field. -/
def sbObj : JObj := .mk "java/lang/StringBuilder" [("_buffer", .vRef (.str []))]

/-- Counterexample to C9 as stated: `new java/lang/StringBuilder` allocates
an instance whose field map is *not* empty — it holds the native `_buffer`
field. -/
theorem c9_counterexample_stringbuilder :
    executeNew 1 vmNoLoad frameC9 =
      (.ok zeroValue false, vmSB9, { frameC9 with pc := 3, stack := [.vRef (.obj sbObj)] }) ∧
    sbObj.fields ≠ [] :=
  ⟨rfl, by simp [sbObj, JObj.fields]⟩

/-- Claim C9 (amended): for every class name other than
`java/lang/StringBuilder`, the `new` opcode first runs the class's
`<clinit>` if it has not already been initialized, then allocates an
instance whose field map is empty (a `java/lang/StringBuilder` instead
gets a single native `_buffer` field holding the empty string), and does
not invoke `<init>` — the only method runs it causes are `<clinit>`
runs. -/
theorem c9_new_allocates_empty (fuel : Nat) (vm vm1 : VMSt) (frame f1 : Frame)
    (idx : Nat) (cn : String) (evs : List RunEvent) :
    frame.readU16? = some (idx, f1) →
    GetClassName f1.cls.pool idx = .ok cn →
    ensureInitialized fuel vm cn = (vm1, none, evs) →
    cn ≠ "java/lang/StringBuilder" →
    (executeNew fuel vm frame =
      (.ok zeroValue false, vm1, f1.push (.vRef (.obj (.mk cn [])))) ∧
    (∀ ev ∈ evs, (ev : RunEvent).2 = "<clinit>") ∧
    (vm.initialized cn = true → evs = [])) := by
  intro h1 h2 h3 h4
  refine ⟨?_, ?_, ?_⟩
  · unfold executeNew
    rw [h1]
    dsimp only
    rw [h2]
    dsimp only
    rw [h3]
    dsimp only
    rw [if_neg h4]
  · intro ev hev
    have h3i : initRun fuel vm (.cls cn) = (vm1, none, evs) := h3
    exact initRun_events_clinit fuel (.cls cn) vm ev (by rw [h3i]; exact hev)
  · intro hm
    cases fuel with
    | zero =>
      unfold ensureInitialized initRun at h3
      simp at h3
    | succ n =>
      unfold ensureInitialized initRun at h3
      rw [if_pos hm] at h3
      injection h3 with a b
      injection b with c d
      exact d.symm

/-- Pool naming `Point` for the C9 witness. -/
def poolC9b : Pool := [none, some (.cls 2), some (.utf8 "Point")]

/-- Class of the C9 witness frame. -/
def clsC9b : ClassFile := ⟨poolC9b, 0, 0, [], none⟩

/-- A `new #1` frame for `Point`, already past the opcode byte. -/
def frameC9b : Frame := ⟨[], [], [0xBB, 0x00, 0x01], 1, clsC9b⟩

/-- The VM state after the `new` triggered (and failed to load) `Point`. -/
def vmPoint9 : VMSt := (ensureInitialized 1 vmNoLoad "Point").1

/-- Witness for the amended C9: `new Point` pushes an instance with an
empty field map and does not invoke any constructor. -/
theorem c9_new_allocates_empty_witness :
    executeNew 1 vmNoLoad frameC9b =
      (.ok zeroValue false, vmPoint9,
        { frameC9b with pc := 3, stack := [.vRef (.obj (.mk "Point" []))] }) :=
  (c9_new_allocates_empty 1 vmNoLoad vmPoint9 frameC9b { frameC9b with pc := 3 } 1
    "Point" [] rfl rfl rfl (by decide)).1

/-- Class `Foo` whose `<clinit>` throws `java/lang/RuntimeException`. -/
def clsFooC1 : ClassFile := ⟨[], 0, 0, [], some [.throwJava "java/lang/RuntimeException"]⟩

/-- VM whose loader serves `Foo`. -/
def vmC1 : VMSt := ⟨fun n => if n = "Foo" then some clsFooC1 else none, [], fun _ => false⟩

/-- Method bytecode `getstatic #1; return` over the `Foo.x:I` pool. -/
def codeC1 : List Nat := [0xB2, 0x00, 0x01, 0xB1]

/-- Its code attribute, with a catch-all handler covering the
`getstatic`. -/
def codeAttrC1 : CodeAttr := ⟨2, 0, codeC1, [⟨0, 3, 3, 0⟩]⟩

/-- Entry frame of the C1 scenario. -/
def frameC1 : Frame := ⟨[], [], codeC1, 0, clsC5⟩

/-- VM state after the failed initialization of `Foo`. -/
def vmC1after : VMSt := (ensureInitialized 5 vmC1 "Foo").1

/-- The error `executeGetstatic` actually surfaces: the `*JavaException`
from `<clinit>` wrapped by `fmt.Errorf("getstatic: initializing %s: %w")`
into a host error. -/
def eC1 : GoError :=
  .wrapped "getstatic: initializing Foo" (NewJavaException "java/lang/RuntimeException")

/-- Claim C1 evaluated at a failing input (the claim is false on the
code): when `Foo`'s `<clinit>` throws a Java exception and a `getstatic`
triggers the initialization, `executeGetstatic` surfaces the exception
wrapped in a host error — the `err.(*JavaException)` assertion no longer
recognizes it (`isJavaExc` is `none`), so the executing method aborts with
a host error instead of branching to its catch-all handler, even though
`findExceptionHandler` would have matched the unwrapped exception at that
pc. -/
theorem c1_clinit_exception_wrapped_uncatchable :
    executeGetstatic 5 vmC1 { frameC1 with pc := 1 } =
      (.err eC1, vmC1after, { frameC1 with pc := 3 }) ∧
    isJavaExc eC1 = none ∧
    findExceptionHandler 1 vmC1after codeAttrC1.handlers 0
      (.mk "java/lang/RuntimeException" []) clsC5 = some ⟨0, 3, 3, 0⟩ ∧
    executeMethodLoop (executeInstr 5) 1 codeAttrC1 ⟨"main", "()V"⟩ clsC5 10 vmC1 frameC1 =
      .err (.wrapped "in .main:()V at PC=0" eC1) ∧
    vmC1after.initialized "Foo" = true :=
  ⟨rfl, rfl, rfl, rfl, rfl⟩

end GoJVM
